import Mathlib

/-!
Shallow embedding of the agent/tag-game core of the Sifa playground
simulation: the tag-rule state machine (`src/game/SifaRules.js`, the
variant with `prevItAgentId` and the voice manager), the gene/ability
system (`src/game/GeneSystem.js`), the spatial learning memory
(`src/agents/AgentBrain.js`), the stuck diagnostic
(`src/game/StuckDiagnostic.js`), and the gene-relevant slice of the engine
loop (`GameEngine`).

JavaScript numbers are embedded as exact rationals.  `Math.sqrt` is
handled in one of two ways, noted at each site: where the code only
compares a square root against a nonnegative constant, the comparison is
translated by the exact equivalence `Real.sqrt a < c ↔ a < c ^ 2` (for
`0 ≤ a`, `0 ≤ c`); where the code uses the square-root value itself in
arithmetic, the square root is kept abstract as an explicit function
parameter, and the theorems quantify over it.
-/

/-- The fields of `Agent` (src/agents/Agent.js) that `SifaRules` reads or
writes during one `update` tick: `id`, the ground-plane position
(`body.position.x/z`, constant during the tag scan), the `isIt` flag, and
the `shielded` flag (which `SifaRules` never reads). -/
structure SAgent where
  id : Nat
  x : ℚ
  z : ℚ
  isIt : Bool
  shielded : Bool
deriving DecidableEq

/-- Squared ground-plane distance.  `Agent.distanceTo` returns
`Math.sqrt` of this; `SifaRules.update` only compares it against
`TAG_DISTANCE`, so the comparison is translated via
`sqrt d < c ↔ d < c ^ 2`. -/
def distSq (p q : SAgent) : ℚ := (p.x - q.x) ^ 2 + (p.z - q.z) ^ 2

/-- One entry of `SifaRules.tagHistory` (`{from, to, time}`). -/
structure TagEvent where
  fromId : Nat
  toId : Nat
  time : ℚ
deriving DecidableEq

/-- The mutable state of `SifaRules` together with the agent array it
scans.  `prevItAgentId` starts as `-1`, hence `Int`.  `cooldowns` embeds
the JS `Map` (unique keys, agentId to expiry time).  The speech/voice
side effects (`say`, `speak`, shout timers, `startTaunt`) are omitted:
they write only render/audio state that the tag logic never reads. -/
structure SifaState where
  agents : List SAgent
  itAgentId : Nat
  prevItAgentId : Int
  cooldowns : List (Nat × ℚ)
  gameTime : ℚ
  tagHistory : List TagEvent
deriving DecidableEq

namespace SifaRules

/-- `this.TAG_DISTANCE = 1.2`. -/
def TAG_DISTANCE : ℚ := 6 / 5

/-- `this.COOLDOWN_TIME = 3.0`. -/
def COOLDOWN_TIME : ℚ := 3

/-- `Map.get` on the cooldown map. -/
def cdGet : List (Nat × ℚ) → Nat → Option ℚ
  | [], _ => none
  | p :: r, i => if p.1 = i then some p.2 else cdGet r i

/-- `Map.set` on the cooldown map: replace the existing key in place, else
append. -/
def cdSet : List (Nat × ℚ) → Nat → ℚ → List (Nat × ℚ)
  | [], i, v => [(i, v)]
  | p :: r, i, v => if p.1 = i then (i, v) :: r else p :: cdSet r i v

/-- `isOnCooldown(agentId)`: `expiry && this.gameTime < expiry`.  The JS
truthiness test on `expiry` makes a stored expiry of `0` count as "not on
cooldown", hence the explicit `e = 0` case. -/
def isOnCooldown (s : SifaState) (i : Nat) : Bool :=
  match cdGet s.cooldowns i with
  | none => false
  | some e => if e = 0 then false else decide (s.gameTime < e)

/-- Array element access `agents[k]`. -/
def getIdx? : List SAgent → Nat → Option SAgent
  | [], _ => none
  | a :: _, 0 => some a
  | _ :: l, n + 1 => getIdx? l n

/-- The object mutation `agents-entry-with-id-j .isIt = v`, expressed on
the agent list (ids are unique in the repository: `AgentManager` creates
agents `0..4`). -/
def setIsIt (l : List SAgent) (j : Nat) (v : Bool) : List SAgent :=
  l.map fun a => if a.id = j then { a with isIt := v } else a

/-- `executeTag(tagger, tagged)`: record the history entry, flip `isIt` on
both parties (in source order: tagger first, tagged second), transfer
`itAgentId`, remember `prevItAgentId`, and set the tagger's cooldown.
The shout/taunt/voice side effects are omitted (render/audio only). -/
def executeTag (s : SifaState) (tagger tagged : SAgent) : SifaState :=
  { agents := setIsIt (setIsIt s.agents tagger.id false) tagged.id true
    itAgentId := tagged.id
    prevItAgentId := (tagger.id : Int)
    cooldowns := cdSet s.cooldowns tagger.id (s.gameTime + COOLDOWN_TIME)
    gameTime := s.gameTime
    tagHistory := s.tagHistory ++ [⟨tagger.id, tagged.id, s.gameTime⟩] }

/-- The body of the `agents.forEach(target => ...)` tag scan for a single
`target`.  `it` is the agent object captured before the loop
(`agents[this.itAgentId]` at tick start); the guards read the *threaded*
`itAgentId` / `prevItAgentId` / `cooldowns`, which a tag executed earlier
in the same scan has already mutated. -/
def tagStep (it target : SAgent) (s : SifaState) : SifaState :=
  if target.id = s.itAgentId then s
  else if (target.id : Int) = s.prevItAgentId then s
  else if isOnCooldown s target.id then s
  else if distSq it target < TAG_DISTANCE ^ 2 then executeTag s it target
  else s

/-- The full `agents.forEach` tag scan.  The iteration order is the agent
array order; ids and positions of the visited elements are not mutated by
`executeTag`, so iterating the tick-start list is faithful. -/
def checkTags (it : SAgent) : List SAgent → SifaState → SifaState
  | [], s => s
  | t :: rest, s => checkTags it rest (tagStep it t s)

/-- `update(dt)`: advance the clock, look up the IT agent (`if (!it)
return` — note the clock has already advanced), run the tag scan, then
sweep expired cooldowns (`delete` when `gameTime >= expiry`, i.e. keep
when `gameTime < expiry`).  The random-shout block is omitted: it writes
only `shoutTimer` and speech/voice state, which the tag logic never
reads. -/
def update (s : SifaState) (dt : ℚ) : SifaState :=
  let s1 : SifaState := { s with gameTime := s.gameTime + dt }
  match getIdx? s1.agents s1.itAgentId with
  | none => s1
  | some it =>
      let s2 := checkTags it s1.agents s1
      { s2 with cooldowns := s2.cooldowns.filter fun p => decide (s2.gameTime < p.2) }

/-- `initialize()` with the random draw `Math.floor(Math.random() * 5)`
passed in as `r`: select the first IT agent and set its `isIt` flag (the
`say`/`speak` calls are omitted). -/
def firstIt (s : SifaState) (r : Nat) : SifaState :=
  { s with itAgentId := r
           agents := match getIdx? s.agents r with
                     | none => s.agents
                     | some a => setIsIt s.agents a.id true }

/-- Number of agents whose `isIt` flag is set. -/
def countIt (s : SifaState) : Nat := (s.agents.filter fun a => a.isIt).length

/-- The tag events appended by a single `update` call. -/
def newEvents (s : SifaState) (dt : ℚ) : List TagEvent :=
  (update s dt).tagHistory.drop s.tagHistory.length

/-- The object mutation `agent.shielded = b` on the agent with id `i`
(`Agent._updateAbilities` line `this.shielded = gs.isActive(this.id,
'shield')`). -/
def shieldFn (i : Nat) (b : Bool) (a : SAgent) : SAgent :=
  if a.id = i then { a with shielded := b } else a

/-- The `shielded` write lifted to the whole state. -/
def modifyShielded (i : Nat) (b : Bool) (s : SifaState) : SifaState :=
  { s with agents := s.agents.map (shieldFn i b) }

end SifaRules

/-! Gene/ability system (`src/game/GeneSystem.js`). -/

/-- The seven gene names (`GENES`). -/
inductive GeneName where
  | speed | agility | scream | fly | shield | stealth | dash
deriving DecidableEq

/-- A gene map `{ geneName: value }`.  `initAgent` populates all seven
keys, so a total record is faithful. -/
structure GeneVec where
  speed : ℚ
  agility : ℚ
  scream : ℚ
  fly : ℚ
  shield : ℚ
  stealth : ℚ
  dash : ℚ
deriving DecidableEq

def GeneVec.get (g : GeneVec) : GeneName → ℚ
  | .speed => g.speed
  | .agility => g.agility
  | .scream => g.scream
  | .fly => g.fly
  | .shield => g.shield
  | .stealth => g.stealth
  | .dash => g.dash

def GeneVec.set (g : GeneVec) : GeneName → ℚ → GeneVec
  | .speed, v => { g with speed := v }
  | .agility, v => { g with agility := v }
  | .scream, v => { g with scream := v }
  | .fly, v => { g with fly := v }
  | .shield, v => { g with shield := v }
  | .stealth, v => { g with stealth := v }
  | .dash, v => { g with dash := v }

/-- `GENES` in source order (used by `reinforceOnEscape` to find the
strongest gene). -/
def geneList : List GeneName :=
  [.speed, .agility, .scream, .fly, .shield, .stealth, .dash]

/-- The five ability keys (`ABILITIES` / `ABILITY_ORDER`). -/
inductive AbilityKey where
  | dash | scream | fly | stealth | shield
deriving DecidableEq

/-- One row of the data-driven `ABILITIES` table (name and icon are
display-only and omitted). -/
structure AbilityDef where
  gene : GeneName
  threshold : ℚ
  duration : ℚ
  cooldown : ℚ

/-- The `ABILITIES` table. -/
def abilityDef : AbilityKey → AbilityDef
  | .dash => ⟨.dash, 1/2, 3/2, 8⟩
  | .scream => ⟨.scream, 3/5, 1/2, 10⟩
  | .fly => ⟨.fly, 7/10, 3, 15⟩
  | .stealth => ⟨.stealth, 3/4, 4, 18⟩
  | .shield => ⟨.shield, 4/5, 2, 20⟩

/-- `Object.entries(ABILITIES)` iteration order (insertion order of the
literal). -/
def abilityList : List AbilityKey := [.dash, .scream, .fly, .stealth, .shield]

/-- A per-ability timer map `{ abilityKey: remaining }`.  A missing key
and a stored `0` behave identically under every read in the source
(`(m[key] || 0) > 0` and `if (m[key] > 0)`), so a total record with
default `0` is faithful. -/
structure AbilVec where
  dash : ℚ
  scream : ℚ
  fly : ℚ
  stealth : ℚ
  shield : ℚ
deriving DecidableEq

def AbilVec.get (m : AbilVec) : AbilityKey → ℚ
  | .dash => m.dash
  | .scream => m.scream
  | .fly => m.fly
  | .stealth => m.stealth
  | .shield => m.shield

def AbilVec.set (m : AbilVec) : AbilityKey → ℚ → AbilVec
  | .dash, v => { m with dash := v }
  | .scream, v => { m with scream := v }
  | .fly, v => { m with fly := v }
  | .stealth, v => { m with stealth := v }
  | .shield, v => { m with shield := v }

/-- Rebuild a timer map pointwise (the `Object.keys(...).forEach` loops
visit every key). -/
def AbilVec.mapIdx (f : AbilityKey → ℚ → ℚ) (m : AbilVec) : AbilVec :=
  ⟨f .dash m.dash, f .scream m.scream, f .fly m.fly, f .stealth m.stealth, f .shield m.shield⟩

/-- The zero timer map (`initAgent` stores `{}` for both timer maps). -/
def AbilVec.zero : AbilVec := ⟨0, 0, 0, 0, 0⟩

/-- The per-agent slice of `GeneSystem`: the three maps `agentGenes`,
`activeAbilities` and `abilityCooldowns` are keyed by the same agent ids
(`initAgent` populates all three together), so they are merged into one
record per agent. -/
structure AgentEvo where
  genes : GeneVec
  active : AbilVec
  cds : AbilVec
deriving DecidableEq

/-- `GeneSystem` state.  `evolutionLog` keeps `(agentId, abilityKey)`
(name/icon/time are display-only). -/
structure GeneSys where
  agents : List (Nat × AgentEvo)
  totalMutations : Nat
  bgTimer : ℚ
  evoLog : List (Nat × AbilityKey)
deriving DecidableEq

namespace GeneSys

/-- `Map.get` on the agent map. -/
def find? : List (Nat × AgentEvo) → Nat → Option AgentEvo
  | [], _ => none
  | p :: r, i => if p.1 = i then some p.2 else find? r i

/-- Mutate the entry of agent `i` in place (ids are unique `Map` keys). -/
def updAgent (g : GeneSys) (i : Nat) (f : AgentEvo → AgentEvo) : GeneSys :=
  { g with agents := g.agents.map fun p => if p.1 = i then (p.1, f p.2) else p }

/-- `canUseAbility(agentId, abilityKey)`.  A missing agent yields
`getGenes = {}`, so the gene read is `0`, which is below every threshold
in the table; hence `none => false` is faithful. -/
def canUseAbility (g : GeneSys) (i : Nat) (k : AbilityKey) : Bool :=
  match find? g.agents i with
  | none => false
  | some ev =>
      let d := abilityDef k
      if ev.genes.get d.gene < d.threshold then false
      else if 0 < ev.cds.get k then false
      else if 0 < ev.active.get k then false
      else true

/-- `activateAbility(agentId, abilityKey)`: the returned flag and the new
state. -/
def activateAbility (g : GeneSys) (i : Nat) (k : AbilityKey) : Bool × GeneSys :=
  if canUseAbility g i k then
    (true, updAgent g i fun ev => { ev with active := ev.active.set k (abilityDef k).duration })
  else (false, g)

/-- `isActive(agentId, abilityKey)`. -/
def isActive (g : GeneSys) (i : Nat) (k : AbilityKey) : Bool :=
  match find? g.agents i with
  | none => false
  | some ev => decide (0 < ev.active.get k)

/-- The per-agent effect of the two timer loops in `update(dt)`: first
every positive active-duration timer is decremented and, on expiry,
zeroed with the ability's cooldown written into the cooldown map; then
every positive cooldown timer (including one written moments ago in the
same call) is decremented and clamped at `0`.  The two source loops run
over all agents in sequence, but they touch disjoint per-agent data, so
fusing them per agent is faithful. -/
def abilityTick (dt : ℚ) (ev : AgentEvo) : AgentEvo :=
  let active' := AbilVec.mapIdx (fun _ v => if 0 < v then (if v - dt ≤ 0 then 0 else v - dt) else v) ev.active
  let cdsMid := AbilVec.mapIdx
    (fun k c => if 0 < ev.active.get k ∧ ev.active.get k - dt ≤ 0 then (abilityDef k).cooldown else c) ev.cds
  let cds' := AbilVec.mapIdx (fun _ c => if 0 < c then (if c - dt ≤ 0 then 0 else c - dt) else c) cdsMid
  { ev with active := active', cds := cds' }

/-- `_checkNewAbility(agentId, gene, oldVal, newVal)`: the evolution-log
entries pushed when a gene first crosses an unlock threshold. -/
def checkNewAbility (i : Nat) (gene : GeneName) (oldVal newVal : ℚ) : List (Nat × AbilityKey) :=
  (abilityList.filter fun k =>
    let d := abilityDef k
    d.gene = gene ∧ d.threshold ≤ newVal ∧ oldVal < d.threshold).map fun k => (i, k)

/-- `_backgroundMutate(agentId)` with the two `Math.random()` draws passed
in as `pick` (the chosen gene) and `r` (the raw `Math.random()` value of
the amount `0.01 + random * 0.02`). -/
def backgroundMutate (pick : GeneName) (r : ℚ) (ev : AgentEvo) : AgentEvo × (ℚ × ℚ) :=
  let oldVal := ev.genes.get pick
  let amount := 1/100 + r * (2/100)
  let newVal := min 1 (oldVal + amount)
  ({ ev with genes := ev.genes.set pick newVal }, (oldVal, newVal))

/-- `update(dt)` with the background-mutation randomness passed in as
`bg` (per agent id, the chosen gene and the raw amount draw): tick the
two timer maps of every agent, then advance `bgTimer` and, every 30
seconds, background-mutate every agent and log any newly crossed
thresholds. -/
def update (g : GeneSys) (dt : ℚ) (bg : Nat → GeneName × ℚ) : GeneSys :=
  let ticked : List (Nat × AgentEvo) := g.agents.map fun p => (p.1, abilityTick dt p.2)
  let t' := g.bgTimer + dt
  if 30 ≤ t' then
    { agents := ticked.map fun p => (p.1, (backgroundMutate (bg p.1).1 (bg p.1).2 p.2).1)
      totalMutations := g.totalMutations
      bgTimer := 0
      evoLog := ticked.foldl (fun log p =>
        let m := backgroundMutate (bg p.1).1 (bg p.1).2 p.2
        log ++ checkNewAbility p.1 (bg p.1).1 m.2.1 m.2.2) g.evoLog }
  else { g with agents := ticked, bgTimer := t' }

/-- `mutateOnTagged(agentId)` with the randomness passed in as `picks`:
the list of `(gene, rawAmount)` draws (`Math.random() > 0.6` makes the
source draw one or two of them; each amount is `0.05 + random * 0.1`).
Each pick caps the gene at `1` and logs newly crossed thresholds;
`totalMutations` increments once per call. -/
def mutateOnTagged (g : GeneSys) (i : Nat) (picks : List (GeneName × ℚ)) : GeneSys :=
  let g1 := picks.foldl (fun acc p =>
    match find? acc.agents i with
    | none => acc
    | some ev =>
        let oldVal := ev.genes.get p.1
        let amount := 1/20 + p.2 * (1/10)
        let newVal := min 1 (oldVal + amount)
        { updAgent acc i (fun e => { e with genes := e.genes.set p.1 newVal }) with
            evoLog := acc.evoLog ++ checkNewAbility i p.1 oldVal newVal }) g
  { g1 with totalMutations := g1.totalMutations + 1 }

/-- `reinforceOnEscape(agentId)` with the raw amount draw `r`
(`0.02 + random * 0.03`): bump the strongest gene (first maximum in
`GENES` order, strict `>` against a running max starting at `-1`). -/
def reinforceOnEscape (g : GeneSys) (i : Nat) (r : ℚ) : GeneSys :=
  match find? g.agents i with
  | none => g
  | some ev =>
      let strongest := (geneList.foldl (fun acc gn =>
        if acc.2 < ev.genes.get gn then (some gn, ev.genes.get gn) else acc)
        ((none : Option GeneName), (-1 : ℚ))).1
      match strongest with
      | none => g
      | some gn =>
          let oldVal := ev.genes.get gn
          let amount := 1/50 + r * (3/100)
          let newVal := min 1 (oldVal + amount)
          { updAgent g i (fun e => { e with genes := e.genes.set gn newVal }) with
              evoLog := g.evoLog ++ checkNewAbility i gn oldVal newVal }

end GeneSys

/-! Spatial learning memory (`src/agents/AgentBrain.js`). -/

/-- A spatial grid (`GRID_CELLS = 20`, values indexed `[gx][gz]`).  The
clamped `worldToGrid` only ever produces indices `< 20`; a total function
over `Nat` keeps out-of-range cells at their initial `0`. -/
def Grid : Type := Nat → Nat → ℚ

/-- `AgentBrain` state.  `positionHistory` keeps `(x, z)` (the `time`
field is never read by the logic); `DECAY_RATE` is the constant
`0.995`.  The learning rate is state (raised by `checkGeneration`). -/
structure Brain where
  dangerMap : Grid
  safeMap : Grid
  chaseMap : Grid
  targetSuccess : List (Nat × Nat × Nat)
  positionHistory : List (ℚ × ℚ)
  learnRate : ℚ
  totalLessons : Nat
  smartMoves : Nat
  generation : Nat
  sampleTimer : ℚ

namespace Brain

/-- `DECAY_RATE = 0.995`. -/
def DECAY_RATE : ℚ := 199 / 200

/-- The constructor: all grids zero, `LEARN_RATE = 0.1 +
personality.aggression * 0.05`, generation 1. -/
def init (aggression : ℚ) : Brain :=
  { dangerMap := fun _ _ => 0
    safeMap := fun _ _ => 0
    chaseMap := fun _ _ => 0
    targetSuccess := []
    positionHistory := []
    learnRate := 1/10 + aggression * (1/20)
    totalLessons := 0
    smartMoves := 0
    generation := 1
    sampleTimer := 0 }

/-- `worldToGrid(x, z)`: floor to the 2-unit tile, then clamp into
`0..19` (`Math.max(0, Math.min(GRID_CELLS - 1, g))`). -/
def worldToGrid (x z : ℚ) : Nat × Nat :=
  ((max 0 (min 19 ⌊(x + 20) / 2⌋)).toNat, (max 0 (min 19 ⌊(z + 20) / 2⌋)).toNat)

/-- The grid write `g[c] = Math.min(1, g[c] + w)`. -/
def bump (g : Grid) (c : Nat × Nat) (w : ℚ) : Grid :=
  fun i j => if i = c.1 ∧ j = c.2 then min 1 (g i j + w) else g i j

/-- `checkGeneration()`: a new generation every 50 lessons slightly
raises the learning rate (capped at `0.3`). -/
def checkGeneration (b : Brain) : Brain :=
  let newGen := b.totalLessons / 50 + 1
  if b.generation < newGen then
    { b with generation := newGen, learnRate := min (3/10) (b.learnRate + 1/100) }
  else b

/-- The `targetSuccess` ensure-then-increment pattern shared by
`onTaggedSomeone` (`att = 1, cat = 1`) and `onChaseFailed`
(`att = 1, cat = 0`): a missing key is first inserted as
`{attempts: 0, catches: 0}`. -/
def tsAdd : List (Nat × Nat × Nat) → Nat → Nat → Nat → List (Nat × Nat × Nat)
  | [], t, att, cat => [(t, att, cat)]
  | p :: r, t, att, cat =>
      if p.1 = t then (t, p.2.1 + att, p.2.2 + cat) :: r else p :: tsAdd r t att cat

/-- `onGotTagged(x, z, taggerId)`: mark the current tile as dangerous
(`+ LEARN_RATE * 2`, capped at 1), then mark the last five recorded
positions with linearly growing weights `(i+1)/len * LEARN_RATE`, then
count the lesson. -/
def onGotTagged (x z : ℚ) (b : Brain) : Brain :=
  let d1 := bump b.dangerMap (worldToGrid x z) (b.learnRate * 2)
  let recent := b.positionHistory.drop (b.positionHistory.length - 5)
  let d2 := recent.enum.foldl
    (fun g ip => bump g (worldToGrid ip.2.1 ip.2.2) (((ip.1 : ℚ) + 1) / (recent.length : ℚ) * b.learnRate))
    d1
  checkGeneration { b with dangerMap := d2, totalLessons := b.totalLessons + 1 }

/-- `onTaggedSomeone(x, z, targetId)`: mark the current tile as
chase-favorable and count a catch. -/
def onTaggedSomeone (x z : ℚ) (targetId : Nat) (b : Brain) : Brain :=
  checkGeneration
    { b with chaseMap := bump b.chaseMap (worldToGrid x z) (b.learnRate * 2)
             targetSuccess := tsAdd b.targetSuccess targetId 1 1
             totalLessons := b.totalLessons + 1
             smartMoves := b.smartMoves + 2 }

/-- `onChaseFailed(targetId)` (no `checkGeneration` call in the source). -/
def onChaseFailed (targetId : Nat) (b : Brain) : Brain :=
  { b with targetSuccess := tsAdd b.targetSuccess targetId 1 0
           totalLessons := b.totalLessons + 1 }

/-- `recordSurvival(x, z, dt)`: sample at most once per second; raise the
safety score of the current tile and append to the bounded position
history (`push` then `shift` beyond 60 entries). -/
def recordSurvival (x z dt : ℚ) (b : Brain) : Brain :=
  let st := b.sampleTimer + dt
  if st < 1 then { b with sampleTimer := st }
  else
    let h1 := b.positionHistory ++ [(x, z)]
    { b with sampleTimer := 0
             safeMap := bump b.safeMap (worldToGrid x z) (b.learnRate * (1/2))
             positionHistory := if 60 < h1.length then h1.drop 1 else h1 }

/-- `decayMemories()`: multiplicative decay of all three grids. -/
def decayMemories (b : Brain) : Brain :=
  { b with dangerMap := fun i j => b.dangerMap i j * DECAY_RATE
           safeMap := fun i j => b.safeMap i j * DECAY_RATE
           chaseMap := fun i j => b.chaseMap i j * DECAY_RATE }

/-- The neighbor offsets `-2..2` of the `getMovementBias` double loop. -/
def offRange : List ℤ := [-2, -1, 0, 1, 2]

/-- The selection loop of `getMovementBias`, taking the three grids
explicitly: scan the 5x5 neighborhood (skipping the center and
out-of-range tiles), score each tile (`chase*2 - safe*0.5` as IT,
`safe*1.5 - danger*3` as runner), track the strictly best score
(`-Infinity` start) and accumulate `totalConfidence` inside the
improvement branch.  Returns `(bestDx, bestDz, totalConfidence)`. -/
def biasCore (danger safe chase : Grid) (gx gz : Nat) (isIt : Bool) : ℤ × ℤ × ℚ :=
  let r := offRange.foldl (fun acc dx =>
    offRange.foldl (fun acc dz =>
      if dx = 0 ∧ dz = 0 then acc
      else
        let nx := (gx : ℤ) + dx
        let nz := (gz : ℤ) + dz
        if nx < 0 ∨ 20 ≤ nx ∨ nz < 0 ∨ 20 ≤ nz then acc
        else
          let score : ℚ :=
            if isIt then chase nx.toNat nz.toNat * 2 - safe nx.toNat nz.toNat * (1/2)
            else safe nx.toNat nz.toNat * (3/2) - danger nx.toNat nz.toNat * 3
          match acc.1 with
          | none => (some score, dx, dz, acc.2.2.2 + |score|)
          | some bs => if bs < score then (some score, dx, dz, acc.2.2.2 + |score|) else acc) acc)
    ((none : Option ℚ), (0 : ℤ), (0 : ℤ), (0 : ℚ))
  (r.2.1, r.2.2.1, r.2.2.2)

/-- `getMovementBias(myX, myZ, isIt)` with `Math.sqrt` abstract as `sq`
(the normalization length is used as a value).  The JS `|| 1` falsy
fallback on the length is the `= 0` test.  Returns the possibly-updated
brain (`smartMoves`) and the `{x, z, confidence}` triple. -/
def getMovementBias (sq : ℚ → ℚ) (b : Brain) (x z : ℚ) (isIt : Bool) : Brain × (ℚ × ℚ × ℚ) :=
  let c := worldToGrid x z
  let core := biasCore b.dangerMap b.safeMap b.chaseMap c.1 c.2 isIt
  let len0 := sq ((core.1 : ℚ) ^ 2 + (core.2.1 : ℚ) ^ 2)
  let len := if len0 = 0 then 1 else len0
  let confidence := min 1 (core.2.2 * (1/2)) * ((b.generation : ℚ) * (3/20))
  if confidence < 1/20 then (b, (0, 0, 0))
  else
    ({ b with smartMoves := b.smartMoves + 1 },
     ((core.1 : ℚ) / len * min confidence (4/5),
      (core.2.1 : ℚ) / len * min confidence (4/5),
      min confidence (4/5)))

end Brain

/-- The `AgentBrain` entry points, as an operation alphabet for stating
reachability invariants over call sequences. -/
inductive BrainOp where
  | gotTagged (x z : ℚ) (taggerId : Nat)
  | taggedSomeone (x z : ℚ) (targetId : Nat)
  | chaseFailed (targetId : Nat)
  | survival (x z dt : ℚ)
  | decay
  | moveBias (x z : ℚ) (isIt : Bool)

/-- Apply one brain operation (for `moveBias`, the state effect is the
`smartMoves` bookkeeping of `getMovementBias`). -/
def applyOp (sq : ℚ → ℚ) (b : Brain) : BrainOp → Brain
  | .gotTagged x z _ => Brain.onGotTagged x z b
  | .taggedSomeone x z t => Brain.onTaggedSomeone x z t b
  | .chaseFailed t => Brain.onChaseFailed t b
  | .survival x z dt => Brain.recordSurvival x z dt b
  | .decay => Brain.decayMemories b
  | .moveBias x z i => (Brain.getMovementBias sq b x z i).1

/-- Apply a sequence of brain operations. -/
def applyOps (sq : ℚ → ℚ) (ops : List BrainOp) (b : Brain) : Brain :=
  ops.foldl (applyOp sq) b

/-- The brain operations that the composed simulation actually invokes:
`Agent.fixedUpdate` calls `getMovementBias`, `recordSurvival` (when not
IT) and `decayMemories` (every 5 s); no caller of `onGotTagged`,
`onTaggedSomeone` or `onChaseFailed` exists anywhere in the repository
(in particular `SifaRules.executeTag` does not invoke them). -/
def BrainOp.isSimInvoked : BrainOp → Bool
  | .survival _ _ _ => true
  | .decay => true
  | .moveBias _ _ _ => true
  | _ => false

/-! Stuck diagnostic and smart escape (`src/game/StuckDiagnostic.js`).

The eight escape directions are `cos/sin` of multiples of `45°`, whose
exact values live in `ℚ(√2)`; `Qr2` below represents `a + b·√2` by the
pair `(a, b)`.  The square roots inside the candidate *scores* are used
as values, so they stay abstract (`sq` on rationals, `sq2` on `Qr2`);
every theorem below quantifies over them. -/

/-- An element `a + b·√2` of `ℚ(√2)`, represented exactly. -/
structure Qr2 where
  a : ℚ
  b : ℚ
deriving DecidableEq

namespace Qr2

instance : Zero Qr2 := ⟨⟨0, 0⟩⟩
instance : Add Qr2 := ⟨fun x y => ⟨x.a + y.a, x.b + y.b⟩⟩
instance : Sub Qr2 := ⟨fun x y => ⟨x.a - y.a, x.b - y.b⟩⟩
instance : Neg Qr2 := ⟨fun x => ⟨-x.a, -x.b⟩⟩
instance : Mul Qr2 := ⟨fun x y => ⟨x.a * y.a + 2 * (x.b * y.b), x.a * y.b + x.b * y.a⟩⟩

/-- Embed a rational. -/
def ofRat (q : ℚ) : Qr2 := ⟨q, 0⟩

/-- Decide `0 < a + b·√2` by sign analysis (squaring to compare `a`
against `√2·b`). -/
def posB (x : Qr2) : Bool :=
  if 0 ≤ x.a then
    if 0 ≤ x.b then decide (0 < x.a) || decide (0 < x.b)
    else decide (2 * x.b ^ 2 < x.a ^ 2)
  else
    if 0 ≤ x.b then decide (x.a ^ 2 < 2 * x.b ^ 2) else false

/-- The strict order `x < y` of the represented reals. -/
def ltB (x y : Qr2) : Bool := posB (y - x)

/-- `Math.min`. -/
def qmin (x y : Qr2) : Qr2 := if posB (x - y) then y else x

/-- `Math.max`. -/
def qmax (x y : Qr2) : Qr2 := if posB (x - y) then x else y

/-- `Math.abs`. -/
def qabs (x : Qr2) : Qr2 := if posB (-x) then -x else x

end Qr2

/-- `Math.cos((i / 8) * Math.PI * 2)` for the eight escape directions:
exact values in `ℚ(√2)` (`cos 45° = (1/2)·√2`). -/
def dirCos : Fin 8 → Qr2
  | 0 => ⟨1, 0⟩
  | 1 => ⟨0, 1/2⟩
  | 2 => ⟨0, 0⟩
  | 3 => ⟨0, -1/2⟩
  | 4 => ⟨-1, 0⟩
  | 5 => ⟨0, -1/2⟩
  | 6 => ⟨0, 0⟩
  | 7 => ⟨0, 1/2⟩

/-- `Math.sin((i / 8) * Math.PI * 2)`, exactly. -/
def dirSin : Fin 8 → Qr2
  | 0 => ⟨0, 0⟩
  | 1 => ⟨0, 1/2⟩
  | 2 => ⟨1, 0⟩
  | 3 => ⟨0, 1/2⟩
  | 4 => ⟨0, 0⟩
  | 5 => ⟨0, -1/2⟩
  | 6 => ⟨-1, 0⟩
  | 7 => ⟨0, -1/2⟩

/-- The escape velocity candidate of direction `i`:
`{x: dx * speed, z: dz * speed}` with `speed = 10`. -/
def dirVel (i : Fin 8) : Qr2 × Qr2 := (dirCos i * Qr2.ofRat 10, dirSin i * Qr2.ofRat 10)

/-- An obstacle is circular (`r`) or rectangular (`rx`/`rz`
half-extents); `_distToObstacle` branches on the presence of `r`. -/
inductive ObShape where
  | circle (r : ℚ)
  | rect (rx rz : ℚ)

/-- One entry of the `OBSTACLES` table (the display name is omitted). -/
structure Obstacle where
  x : ℚ
  z : ℚ
  shape : ObShape

/-- The hard-coded `OBSTACLES` table: eight playground items plus eight
trees of radius `0.6`. -/
def OBSTACLES : List Obstacle :=
  [⟨-8, -13/2, .rect 1 2⟩, ⟨6, -7, .rect (23/10) (4/5)⟩, ⟨0, 7, .rect (23/10) (23/10)⟩,
   ⟨-7, 5, .rect (9/5) (4/5)⟩, ⟨8, 5, .circle (9/5)⟩, ⟨-12, 0, .rect (1/2) (6/5)⟩,
   ⟨12, -2, .rect (1/2) (6/5)⟩, ⟨3, -13, .rect (6/5) (1/2)⟩,
   ⟨-14, -14, .circle (3/5)⟩, ⟨14, -14, .circle (3/5)⟩, ⟨-14, 10, .circle (3/5)⟩,
   ⟨13, 12, .circle (3/5)⟩, ⟨-10, 14, .circle (3/5)⟩, ⟨10, -12, .circle (3/5)⟩,
   ⟨-15, 0, .circle (3/5)⟩, ⟨15, 3, .circle (3/5)⟩]

/-- `_distToObstacle(px, pz, obs)` over `ℚ(√2)` test points, with the
square root abstract (`sq2`). -/
def distToObs2 (sq2 : Qr2 → Qr2) (x z : Qr2) (o : Obstacle) : Qr2 :=
  match o.shape with
  | .circle r =>
      sq2 ((x - Qr2.ofRat o.x) * (x - Qr2.ofRat o.x) + (z - Qr2.ofRat o.z) * (z - Qr2.ofRat o.z))
        - Qr2.ofRat r
  | .rect rx rz =>
      let dx := Qr2.qmax 0 (Qr2.qabs (x - Qr2.ofRat o.x) - Qr2.ofRat rx)
      let dz := Qr2.qmax 0 (Qr2.qabs (z - Qr2.ofRat o.z) - Qr2.ofRat rz)
      sq2 (dx * dx + dz * dz)

/-- `_distToObstacle` over rational test points (used by the
`_findSafeSpot` grid search), square root abstract (`sq`). -/
def distToObsQ (sq : ℚ → ℚ) (x z : ℚ) (o : Obstacle) : ℚ :=
  match o.shape with
  | .circle r => sq ((x - o.x) ^ 2 + (z - o.z) ^ 2) - r
  | .rect rx rz =>
      let dx := max 0 (|x - o.x| - rx)
      let dz := max 0 (|z - o.z| - rz)
      sq (dx ^ 2 + dz ^ 2)

/-- The score of escape direction `i` in `_findEscapeDir`: summed
per-obstacle clearance capped at 3, a `+5` in-bounds bonus
(`|test| < BOUND - 2 = 14`), a center pull `-dist·0.1`, and a penalty for
other agents closer than 2. -/
def escapeScore (sq2 : Qr2 → Qr2) (px pz : ℚ) (agents : List (Nat × ℚ × ℚ)) (myId : Nat)
    (i : Fin 8) : Qr2 :=
  let testX := Qr2.ofRat px + dirCos i * Qr2.ofRat 2
  let testZ := Qr2.ofRat pz + dirSin i * Qr2.ofRat 2
  let s0 := OBSTACLES.foldl (fun acc o => acc + Qr2.qmin (distToObs2 sq2 testX testZ o) (Qr2.ofRat 3)) 0
  let s1 := if Qr2.ltB (Qr2.qabs testX) (Qr2.ofRat 14) && Qr2.ltB (Qr2.qabs testZ) (Qr2.ofRat 14)
            then s0 + Qr2.ofRat 5 else s0
  let s2 := s1 - sq2 (testX * testX + testZ * testZ) * Qr2.ofRat (1/10)
  agents.foldl (fun acc p =>
    if p.1 = myId then acc
    else
      let ad := sq2 ((testX - Qr2.ofRat p.2.1) * (testX - Qr2.ofRat p.2.1)
                      + (testZ - Qr2.ofRat p.2.2) * (testZ - Qr2.ofRat p.2.2))
      if Qr2.ltB ad (Qr2.ofRat 2) then acc - (Qr2.ofRat 2 - ad) * Qr2.ofRat 3 else acc) s2

/-- The strict-improvement argmax loop of `_findEscapeDir`
(`bestScore = -Infinity` start is the `none` case; `bestDir` starts at
`{x: 0, z: 0}`). -/
def argmax8 (score : Fin 8 → Qr2) : Qr2 × Qr2 :=
  ((List.finRange 8).foldl (fun acc i =>
      let sc := score i
      match acc.1 with
      | none => (some sc, dirVel i)
      | some bs => if Qr2.ltB bs sc then (some sc, dirVel i) else acc)
    ((none : Option Qr2), ((0 : Qr2), (0 : Qr2)))).2

/-- `_findEscapeDir(px, pz, allAgents, myId)`. -/
def findEscapeDir (sq2 : Qr2 → Qr2) (px pz : ℚ) (agents : List (Nat × ℚ × ℚ)) (myId : Nat) :
    Qr2 × Qr2 :=
  argmax8 (escapeScore sq2 px pz agents myId)

/-- The grid coordinates `-12, -9, ..., 12` of the `_findSafeSpot`
search. -/
def safeGridVals : List ℚ := [-12, -9, -6, -3, 0, 3, 6, 9, 12]

/-- `_findSafeSpot(px, pz, allAgents)`: coarse grid argmax of summed
clearance (capped at 4) minus `0.3·dist`-from-here minus `10` per agent
closer than 2 (the scan includes the stuck agent itself, as in the
source).  `bestPos` starts at `{x: 0, z: 0}`. -/
def findSafeSpot (sq : ℚ → ℚ) (px pz : ℚ) (agents : List (Nat × ℚ × ℚ)) : ℚ × ℚ :=
  (safeGridVals.foldl (fun acc x =>
      safeGridVals.foldl (fun acc z =>
        let s0 := OBSTACLES.foldl (fun s o => s + min (distToObsQ sq x z o) 4) 0
        let s1 := s0 - sq ((x - px) ^ 2 + (z - pz) ^ 2) * (3/10)
        let score := agents.foldl (fun s p =>
          if sq ((p.2.1 - x) ^ 2 + (p.2.2 - z) ^ 2) < 2 then s - 10 else s) s1
        match acc.1 with
        | none => (some score, (x, z))
        | some bs => if bs < score then (some score, (x, z)) else acc) acc)
    ((none : Option ℚ), ((0 : ℚ), (0 : ℚ)))).2

/-- `STUCK_THRESHOLD = 8` (diagnostic logging only). -/
def STUCK_THRESHOLD : Nat := 8

/-- `ESCAPE_THRESHOLD = 12`. -/
def ESCAPE_THRESHOLD : Nat := 12

/-- `WARP_THRESHOLD = 35`. -/
def WARP_THRESHOLD : Nat := 35

/-- The per-agent record of `StuckDiagnostic.agentData` restricted to the
fields the escape logic reads or writes (`reason`, `nearestObstacle`,
`obstDist`, `atBoundary`, `nearAgents` and `stuckHistory` are
diagnostic/telemetry output only: nothing in the escape logic reads
them). -/
structure StuckData where
  stuckFrames : Nat
  lastPos : Option (ℚ × ℚ)
  escapedCount : Nat
  warpedCount : Nat
deriving DecidableEq

/-- `initAgent`. -/
def initStuckData : StuckData := ⟨0, none, 0, 0⟩

/-- The inputs of one `diagnose(agent, allAgents)` call: the agent's
position and velocity and the positions of all agents (`(id, x, z)`,
including the agent itself, as passed to `_findSafeSpot`;
`_findEscapeDir` skips `myId`). -/
structure StuckInput where
  px : ℚ
  pz : ℚ
  vx : ℚ
  vz : ℚ
  agents : List (Nat × ℚ × ℚ)
  myId : Nat

/-- The action `diagnose` takes besides updating its record: a warp
teleports the body to `pos` and overrides velocity with `{x:0, z:0}`; an
escape overrides velocity with the chosen direction times speed 10. -/
inductive StuckAction where
  | warpTo (pos : ℚ × ℚ)
  | escapeVel (v : Qr2 × Qr2)

/-- `diagnose`: update the stuck counter (`moved < 0.015 && speed > 0.5`
is translated by the squared-comparison identity; `Math.max(0, n - 2)`
is `Nat` subtraction), store `lastPos`, then escalate: warp at
`WARP_THRESHOLD`, smart escape at `ESCAPE_THRESHOLD`, else no override.
Both escalations reset the counter to `0`. -/
def diagnose (sq : ℚ → ℚ) (sq2 : Qr2 → Qr2) (d : StuckData) (inp : StuckInput) :
    StuckData × Option StuckAction :=
  let frames :=
    match d.lastPos with
    | none => d.stuckFrames
    | some lp =>
        if (inp.px - lp.1) ^ 2 + (inp.pz - lp.2) ^ 2 < (3/200) ^ 2
            ∧ (1/2) ^ 2 < inp.vx ^ 2 + inp.vz ^ 2
        then d.stuckFrames + 1
        else d.stuckFrames - 2
  let d1 := { d with stuckFrames := frames, lastPos := some (inp.px, inp.pz) }
  if WARP_THRESHOLD ≤ d1.stuckFrames then
    ({ d1 with stuckFrames := 0, warpedCount := d1.warpedCount + 1 },
     some (.warpTo (findSafeSpot sq inp.px inp.pz inp.agents)))
  else if ESCAPE_THRESHOLD ≤ d1.stuckFrames then
    ({ d1 with stuckFrames := 0, escapedCount := d1.escapedCount + 1 },
     some (.escapeVel (findEscapeDir sq2 inp.px inp.pz inp.agents inp.myId)))
  else (d1, none)

/-- A sequence of `diagnose` calls (one per physics tick), keeping the
per-agent record. -/
def runDiag (sq : ℚ → ℚ) (sq2 : Qr2 → Qr2) (steps : List StuckInput) (d : StuckData) :
    StuckData :=
  steps.foldl (fun d inp => (diagnose sq sq2 d inp).1) d

/-! Engine composition (`GameEngine.loop`) and the spec-mandated tag side
effect, for comparing the source tag path with the spec. -/

/-- The gene-relevant slice of one pass of the `GameEngine` loop: during
a fixed step `Agent.fixedUpdate` may attempt ability activations
(`acts`, via `gs.activateAbility`), then `sifaRules.update(fixedStep)`
runs the tag scan; `geneSystem.update(frameDt)` ticks the ability timers
and the 30-second background mutation.  No other call in the repository
mutates `GeneSystem` state. -/
def engineTagStep (p : SifaState × GeneSys) (dt : ℚ) (acts : List (Nat × AbilityKey))
    (bg : Nat → GeneName × ℚ) : SifaState × GeneSys :=
  let g1 := acts.foldl (fun g a => (GeneSys.activateAbility g a.1 a.2).2) p.2
  (SifaRules.update p.1 dt, GeneSys.update g1 dt bg)

/-- Modelled from the spec: §4.1 requires that a tag "triggers a mutation
event on the newly-tagged agent's GeneState (stronger, biased toward
random gene increase) and a smaller reinforcement event on the tagger's
strongest gene".  The source `executeTag` contains no gene call and
`mutateOnTagged` / `reinforceOnEscape` have no caller anywhere in the
repository; this definition pairs the source `executeTag` with the
spec-mandated gene events, for comparison with the source behavior. -/
def executeTagPerSpec (p : SifaState × GeneSys) (tagger tagged : SAgent)
    (picks : List (GeneName × ℚ)) (r : ℚ) : SifaState × GeneSys :=
  (SifaRules.executeTag p.1 tagger tagged,
   GeneSys.reinforceOnEscape (GeneSys.mutateOnTagged p.2 tagged.id picks) tagger.id r)

/-! Concrete states used by the counterexample/evaluation theorems. -/

/-- Five agents in constructor layout (ids `0..4`), with agents 1 and 2
both within `TAG_DISTANCE` of agent 0. -/
def baseAgents : List SAgent :=
  [⟨0, 0, 0, false, false⟩, ⟨1, 1, 0, false, false⟩, ⟨2, -1, 0, false, false⟩,
   ⟨3, 8, 8, false, false⟩, ⟨4, -8, 8, false, false⟩]

/-- The state after `initialize()` drew agent 0 as first IT. -/
def bugState : SifaState := SifaRules.firstIt ⟨baseAgents, 0, -1, [], 0, []⟩ 0

def splitA1 : SAgent := ⟨1, 11/10, 0, false, false⟩

def splitA2 : SAgent := ⟨2, -11/10, 0, false, false⟩

/-- Agent 0 is IT; agents 1 and 2 are each within `TAG_DISTANCE` of agent
0 but `2.2` apart from each other. -/
def splitState : SifaState :=
  ⟨[⟨0, 0, 0, true, false⟩, splitA1, splitA2, ⟨3, 8, 8, false, false⟩, ⟨4, -8, 8, false, false⟩],
   0, -1, [], 0, []⟩

def coolPrev : SAgent := ⟨0, 1/2, 0, false, false⟩

def coolIt : SAgent := ⟨1, 0, 0, true, false⟩

/-- The state immediately after agent 0 tagged agent 1 at game time `0`:
agent 1 is IT, `prevItAgentId = 0`, agent 0 carries the 3-second
cooldown, and agent 0 stands at distance `0.5` from the new IT. -/
def coolState : SifaState :=
  ⟨[coolPrev, coolIt, ⟨2, 9, 9, false, false⟩, ⟨3, 8, 8, false, false⟩, ⟨4, -8, 8, false, false⟩],
   1, 0, [(0, 3)], 0, [⟨0, 1, 0⟩]⟩

/-- Agent 0 is IT and agent 1, within `TAG_DISTANCE`, has its `shielded`
flag set (shield ability active). -/
def shieldState : SifaState :=
  ⟨[⟨0, 0, 0, true, false⟩, ⟨1, 1, 0, false, true⟩, ⟨2, 9, 9, false, false⟩,
    ⟨3, 8, 8, false, false⟩, ⟨4, -8, 8, false, false⟩],
   0, -1, [], 0, []⟩

def tagA0 : SAgent := ⟨0, 0, 0, true, false⟩

def tagA1 : SAgent := ⟨1, 1, 0, false, false⟩

/-- Agent 0 is IT with exactly one agent (1) in tag range. -/
def tagState : SifaState :=
  ⟨[tagA0, tagA1, ⟨2, 9, 9, false, false⟩, ⟨3, 8, 8, false, false⟩, ⟨4, -8, 8, false, false⟩],
   0, -1, [], 0, []⟩

/-- A sample gene vector (dash unlocked at `0.6 ≥ 0.5`). -/
def sampleGenes : GeneVec := ⟨1/5, 1/5, 1/5, 1/5, 1/5, 1/5, 3/5⟩

def sampleEvo : AgentEvo := ⟨sampleGenes, AbilVec.zero, AbilVec.zero⟩

/-- A `GeneSystem` state with agents 0 and 1 initialized. -/
def g4 : GeneSys := ⟨[(0, sampleEvo), (1, sampleEvo)], 0, 0, []⟩

/-- A `GeneSystem` state with agent 0 initialized. -/
def g7 : GeneSys := ⟨[(0, sampleEvo)], 0, 0, []⟩

/-- A fixed background-mutation draw (irrelevant below 30 s). -/
def bg0 : Nat → GeneName × ℚ := fun _ => (GeneName.speed, 0)

/-- A concrete stand-in for `Math.sqrt` on rationals (the theorems using
it do not depend on its values). -/
def sqQ0 : ℚ → ℚ := fun _ => 0

/-- A concrete stand-in for `Math.sqrt` on `ℚ(√2)` scores. -/
def sq2Zero : Qr2 → Qr2 := fun _ => 0

/-- One maximally stuck tick: zero displacement at the origin with
nonzero velocity intent (`speed = 5 > 0.5`). -/
def stuckInp : StuckInput := ⟨0, 0, 5, 0, [(0, 0, 0)], 0⟩


/-- A sequence of `GeneSystem.update(dt)` calls, each with its own
background-mutation draw. -/
def runUpdates (steps : List (ℚ × (Nat → GeneName × ℚ))) (g : GeneSys) : GeneSys :=
  steps.foldl (fun g p => GeneSys.update g p.1 p.2) g

/-- The re-activation blocking invariant for ability `k`: after `T`
elapsed seconds since a successful activation, either the active timer
`a` is still running (and has consumed at most `T` of the duration) or
it has expired and the cooldown timer `c'` still holds the remainder of
`duration + cooldown - dl`, where `dl` bounds the single update step in
which the duration expired (that step also ticks the freshly written
cooldown). -/
def blockedInv (k : AbilityKey) (dl T a c' : ℚ) : Prop :=
  (0 < a ∧ (abilityDef k).duration ≤ a + T)
  ∨ (a = 0 ∧ 0 < c' ∧ (abilityDef k).duration + (abilityDef k).cooldown - dl ≤ c' + T)


/-- All cells of a grid are in `[0, 1]`. -/
def gridBounded (g : Grid) : Prop := ∀ i j, 0 ≤ g i j ∧ g i j ≤ 1

/-- The `AgentBrain` safety invariant: the three grids are `[0, 1]`
bounded and the learning rate is nonnegative. -/
def brainInv (b : Brain) : Prop :=
  gridBounded b.dangerMap ∧ gridBounded b.safeMap ∧ gridBounded b.chaseMap ∧ 0 ≤ b.learnRate

/-! Claim theorems and their supporting lemmas. -/

/-- C1: the claim states that exactly one agent has `isIt = true` at the
end of every `SifaRules.update(dt)` call, in particular in a tick where
two runners are simultaneously within `TAG_DISTANCE` of the IT agent.
The code violates this: from a state reachable by `initialize()` (agent 0
IT) with agents 1 and 2 both in tag range, one `update` executes two tags
(the loop keeps using the captured `it` object and the already-updated
`itAgentId`/`prevItAgentId` guards do not exclude agent 2), leaving both
agents 1 and 2 with `isIt = true`. -/
theorem two_it_after_one_update : SifaRules.countIt (SifaRules.update bugState (1/60)) = 2 := by
  with_unfolding_all decide

/-- C2: the claim states that a tick with at least one eligible agent in
tag range executes exactly one tag, against the first such agent in
iteration order, and no tag against any later eligible agent in the same
tick.  The code violates the "exactly one" part: in `bugState` (agents 1
and 2 both in range of the IT agent 0) a single `update` records two tag
events, the second against the later agent 2. -/
theorem two_tags_in_one_update :
    bugState.tagHistory = []
    ∧ ((SifaRules.update bugState (1/60)).tagHistory.map fun e => (e.fromId, e.toId))
        = [(0, 1), (0, 2)] := by
  constructor
  · with_unfolding_all decide
  · with_unfolding_all decide

/-- C3 counterexample: the claim states that the former tagger becomes
taggable again once `gameTime` reaches `t + 3.0` even with no intervening
tag (so at `t + 3.01` a tag against them is permitted).  In `coolState`
(agent 0 tagged agent 1 at `t = 0`, stands at distance `0.5` from the new
IT) the update at `t + 3.01` executes no tag and leaves agent 1 IT, even
though agent 0's cooldown has expired and agent 0 is well inside
`TAG_DISTANCE`: the `prevItAgentId` check blocks the tag regardless of
elapsed time. -/
theorem prevIt_blocks_after_cooldown :
    (SifaRules.update coolState (301/100)).tagHistory = coolState.tagHistory
    ∧ (SifaRules.update coolState (301/100)).itAgentId = 1
    ∧ SifaRules.isOnCooldown { coolState with gameTime := coolState.gameTime + 301/100 } 0 = false
    ∧ distSq coolIt coolPrev < SifaRules.TAG_DISTANCE ^ 2
    ∧ coolState.gameTime + 301/100 = 0 + 3 + 1/100 := by
  refine ⟨?_, ?_, ?_, ?_, ?_⟩ <;> with_unfolding_all decide

/-- C6 counterexample: the claim states (in particular) that every
executed tag's tagger is the agent that is IT at execution time and that
the target is within `1.2` of that IT agent.  In `splitState` one
`update` records the events `(0,1)` then `(0,2)`: after the first tag the
IT agent is agent 1, yet the second tag's tagger is agent 0 (not IT any
more) and its target, agent 2, is `2.2` away from the actual IT agent 1. -/
theorem second_tag_outside_guard :
    ((SifaRules.update splitState (1/60)).tagHistory.map fun e => (e.fromId, e.toId))
      = [(0, 1), (0, 2)]
    ∧ ¬ distSq splitA1 splitA2 < SifaRules.TAG_DISTANCE ^ 2
    ∧ (0 : Nat) ≠ 1 := by
  refine ⟨?_, ?_, ?_⟩ <;> with_unfolding_all decide

/-- C4: the claim states that every executed tag triggers a mutation
event on the tagged agent's genes and a reinforcement event on the
tagger's strongest gene.  The code violates this: a full engine step in
which a tag executes (`tagState`, one agent in range) leaves the entire
`GeneSystem` agent table and the mutation counter unchanged, whereas the
spec-mandated behavior (`executeTagPerSpec`) increments the mutation
counter and changes the tagged agent's genes. -/
theorem tag_leaves_genes_unchanged :
    (engineTagStep (tagState, g4) (1/60) [] bg0).1.tagHistory.length = 1
    ∧ (engineTagStep (tagState, g4) (1/60) [] bg0).2.agents = g4.agents
    ∧ (engineTagStep (tagState, g4) (1/60) [] bg0).2.totalMutations = 0
    ∧ (executeTagPerSpec (tagState, g4) tagA0 tagA1 [(GeneName.fly, 0)] 0).2.totalMutations = 1
    ∧ GeneSys.find? (executeTagPerSpec (tagState, g4) tagA0 tagA1 [(GeneName.fly, 0)] 0).2.agents 1
        ≠ some sampleEvo := by
  refine ⟨?_, ?_, ?_, ?_, ?_⟩ <;> with_unfolding_all decide

/-- C7 counterexample: the claim states that after a successful
activation, further `activateAbility` for the same ability returns false
until the fixed duration *and* the subsequent fixed cooldown have
elapsed (for dash: `1.5 + 8 = 9.5` seconds).  The code violates this: the
cooldown written in the tick in which the duration expires is decremented
in that same `update` call, so after ticks of `1.5` and `6.5` seconds
(total `8 < 9.5`) the dash ability is usable again. -/
theorem reactivation_before_full_cooldown :
    (GeneSys.activateAbility g7 0 .dash).1 = true
    ∧ (GeneSys.activateAbility
        (GeneSys.update (GeneSys.update (GeneSys.activateAbility g7 0 .dash).2 (3/2) bg0)
          (13/2) bg0) 0 .dash).1 = true
    ∧ (3/2 + 13/2 : ℚ) < (abilityDef .dash).duration + (abilityDef .dash).cooldown := by
  refine ⟨?_, ?_, ?_⟩ <;> with_unfolding_all decide

set_option maxRecDepth 100000 in
/-- C5 counterexample: the claim states that the high threshold
`WARP_THRESHOLD = 35` "must be reachable".  In a run of 41 consecutive
maximally stuck ticks (zero displacement, nonzero velocity intent) the
warp tier never fires: the counter is reset to 0 by the smart escape
every time it reaches `ESCAPE_THRESHOLD = 12`, producing three escapes,
zero warps, and a final counter of 4. -/
theorem stuck_run_never_warps :
    (runDiag sqQ0 sq2Zero (List.replicate 41 stuckInp) initStuckData).warpedCount = 0
    ∧ (runDiag sqQ0 sq2Zero (List.replicate 41 stuckInp) initStuckData).escapedCount = 3
    ∧ (runDiag sqQ0 sq2Zero (List.replicate 41 stuckInp) initStuckData).stuckFrames = 4 := by
  refine ⟨?_, ?_, ?_⟩ <;> with_unfolding_all decide

namespace SifaRules

lemma tagStep_eq_or (it t : SAgent) (s : SifaState) :
    tagStep it t s = s ∨
    (t.id ≠ s.itAgentId ∧ (t.id : Int) ≠ s.prevItAgentId ∧ isOnCooldown s t.id = false ∧
     distSq it t < TAG_DISTANCE ^ 2 ∧ tagStep it t s = executeTag s it t) := by
  unfold tagStep
  split
  · exact Or.inl rfl
  split
  · exact Or.inl rfl
  split
  · exact Or.inl rfl
  split
  · rename_i h1 h2 h3 h4
    exact Or.inr ⟨h1, h2, by simpa using h3, h4, rfl⟩
  · exact Or.inl rfl

lemma checkTags_gameTime (it : SAgent) :
    ∀ (l : List SAgent) (s : SifaState), (checkTags it l s).gameTime = s.gameTime := by
  intro l
  induction l with
  | nil => intro s; rfl
  | cons t rest ih =>
      intro s
      rcases tagStep_eq_or it t s with h | ⟨_, _, _, _, h⟩ <;>
        simp [checkTags, ih, h, executeTag]

lemma checkTags_hist_extends (it : SAgent) :
    ∀ (l : List SAgent) (s : SifaState),
      ∃ suf, (checkTags it l s).tagHistory = s.tagHistory ++ suf := by
  intro l
  induction l with
  | nil => intro s; exact ⟨[], by simp [checkTags]⟩
  | cons t rest ih =>
      intro s
      rcases tagStep_eq_or it t s with h | ⟨_, _, _, _, h⟩
      · rcases ih (tagStep it t s) with ⟨suf, hs⟩
        exact ⟨suf, by rw [checkTags, hs, h]⟩
      · rcases ih (tagStep it t s) with ⟨suf, hs⟩
        refine ⟨⟨it.id, t.id, s.gameTime⟩ :: suf, ?_⟩
        rw [checkTags, hs, h]
        simp [executeTag]

lemma checkTags_first_target (it : SAgent) :
    ∀ (l : List SAgent) (s : SifaState),
      ((checkTags it l s).tagHistory = s.tagHistory) ∨
      ∃ e suf, (checkTags it l s).tagHistory = s.tagHistory ++ e :: suf
        ∧ (e.toId : Int) ≠ s.prevItAgentId := by
  intro l
  induction l with
  | nil => intro s; exact Or.inl rfl
  | cons t rest ih =>
      intro s
      rcases tagStep_eq_or it t s with h | ⟨h1, h2, h3, h4, h⟩
      · rcases ih (tagStep it t s) with hl | ⟨e, suf, he, hne⟩
        · exact Or.inl (by rw [checkTags, hl, h])
        · exact Or.inr ⟨e, suf, by rw [checkTags, he, h], by rw [h] at hne; exact hne⟩
      · rcases checkTags_hist_extends it rest (tagStep it t s) with ⟨suf, hs⟩
        refine Or.inr ⟨⟨it.id, t.id, s.gameTime⟩, suf, ?_, h2⟩
        rw [checkTags, hs, h]
        simp [executeTag]

/-- Projection of `update` onto the tag history when the IT lookup fails. -/
lemma update_tagHistory_none (s : SifaState) (dt : ℚ)
    (hg : getIdx? s.agents s.itAgentId = none) : (update s dt).tagHistory = s.tagHistory := by
  unfold update
  simp [hg]

/-- Projection of `update` onto the tag history: the new history is that
of the tag scan run from the clock-advanced state. -/
lemma update_tagHistory_some (s : SifaState) (dt : ℚ) (it : SAgent)
    (hg : getIdx? s.agents s.itAgentId = some it) :
    (update s dt).tagHistory =
      (checkTags it s.agents { s with gameTime := s.gameTime + dt }).tagHistory := by
  unfold update
  simp [hg]

/-- C3 (amended): after a tag, the former tagger (the current
`prevItAgentId`) cannot be the target of the *next* executed tag: in any
`update` call, the first newly recorded tag event never targets the
incoming `prevItAgentId`, regardless of how much game time has passed.
Taggability is restored only by an intervening tag (which replaces
`prevItAgentId`); the 3-second cooldown alone never restores it. -/
theorem tag_immunity_until_next_tag (s : SifaState) (dt : ℚ) (e : TagEvent)
    (h : (newEvents s dt).head? = some e) : (e.toId : Int) ≠ s.prevItAgentId := by
  unfold newEvents at h
  cases hg : getIdx? s.agents s.itAgentId with
  | none =>
      rw [update_tagHistory_none s dt hg] at h
      simp [List.drop_length] at h
  | some it =>
      rw [update_tagHistory_some s dt it hg] at h
      rcases checkTags_first_target it s.agents { s with gameTime := s.gameTime + dt }
        with hl | ⟨e0, suf, he, hne⟩
      · rw [hl] at h
        simp [List.drop_length] at h
      · rw [he] at h
        have hdrop : (({ s with gameTime := s.gameTime + dt } : SifaState).tagHistory
            ++ e0 :: suf).drop s.tagHistory.length = e0 :: suf := List.drop_left _ _
        rw [hdrop] at h
        simp at h
        subst h
        exact hne

/-- Each tag recorded by the scan satisfies all four of the source's
guards against the *threaded* state at the moment it executes.  The
target splits the scanned list as `l = l1 ++ a :: l2`, the state at the
moment of execution is `checkTags it l1 s` (the scan run over the agents
preceding the target), and there: the target is not the current
`itAgentId`, not the current `prevItAgentId`, not on cooldown, and
strictly inside `TAG_DISTANCE` of the captured agent `it`; the recorded
tagger is `it`, the timestamp is the scan's (constant) clock, and
scanning the target from that state appends exactly this event.  The
hypothesis says the captured agent is the one `itAgentId` designates
(or, after a tag, the one `prevItAgentId` remembers). -/
lemma checkTags_events (it : SAgent) :
    ∀ (l : List SAgent) (s : SifaState),
      (s.itAgentId = it.id ∨ s.prevItAgentId = (it.id : Int)) →
      ∃ suf, (checkTags it l s).tagHistory = s.tagHistory ++ suf
        ∧ ∀ e ∈ suf, ∃ l1 a l2, l = l1 ++ a :: l2 ∧ a.id = e.toId
            ∧ e.fromId = it.id ∧ e.toId ≠ it.id ∧ e.time = s.gameTime
            ∧ distSq it a < TAG_DISTANCE ^ 2
            ∧ e.toId ≠ (checkTags it l1 s).itAgentId
            ∧ (e.toId : Int) ≠ (checkTags it l1 s).prevItAgentId
            ∧ isOnCooldown (checkTags it l1 s) e.toId = false
            ∧ (checkTags it (l1 ++ [a]) s).tagHistory
                = (checkTags it l1 s).tagHistory ++ [e] := by
  intro l
  induction l with
  | nil =>
      intro s _
      exact ⟨[], by simp [checkTags], by simp⟩
  | cons t rest ih =>
      intro s hJ
      rcases tagStep_eq_or it t s with h | ⟨h1, h2, h3, h4, h⟩
      · rcases ih s hJ with ⟨suf, hh, hp⟩
        refine ⟨suf, by rw [checkTags, h]; exact hh, ?_⟩
        intro e he
        rcases hp e he with ⟨l1, a, l2, hsplit, pa, pfrom, pto, ptime, pdist, pit, pprev,
          pcd, ppin⟩
        have hc : checkTags it (t :: l1) s = checkTags it l1 s := by
          rw [checkTags, h]
        have hc2 : checkTags it ((t :: l1) ++ [a]) s = checkTags it (l1 ++ [a]) s := by
          rw [List.cons_append, checkTags, h]
        refine ⟨t :: l1, a, l2, by rw [hsplit, List.cons_append], pa, pfrom, pto, ptime, pdist, ?_, ?_, ?_, ?_⟩
        · rw [hc]; exact pit
        · rw [hc]; exact pprev
        · rw [hc]; exact pcd
        · rw [hc2, hc]; exact ppin
      · have htid : t.id ≠ it.id := by
          rcases hJ with hJ | hJ
          · rw [hJ] at h1; exact h1
          · intro hc
            exact h2 (by rw [hc, hJ])
        have hJ1 : (executeTag s it t).itAgentId = it.id
            ∨ (executeTag s it t).prevItAgentId = (it.id : Int) := by
          right; rfl
        rcases ih (executeTag s it t) hJ1 with ⟨suf, hh, hp⟩
        refine ⟨⟨it.id, t.id, s.gameTime⟩ :: suf, ?_, ?_⟩
        · rw [checkTags, h, hh]
          simp [executeTag]
        · intro e he
          rcases List.mem_cons.mp he with he | he
          · subst he
            have hone : checkTags it ([] ++ [t]) s = executeTag s it t := by
              simp only [List.nil_append, checkTags]
              rw [h]
            refine ⟨[], t, rest, rfl, rfl, rfl, htid, rfl, h4, h1, h2, h3, ?_⟩
            rw [hone]
            rfl
          · rcases hp e he with ⟨l1, a, l2, hsplit, pa, pfrom, pto, ptime, pdist, pit, pprev,
              pcd, ppin⟩
            have hc : checkTags it (t :: l1) s = checkTags it l1 (executeTag s it t) := by
              rw [checkTags, h]
            have hc2 : checkTags it ((t :: l1) ++ [a]) s
                = checkTags it (l1 ++ [a]) (executeTag s it t) := by
              rw [List.cons_append, checkTags, h]
            refine ⟨t :: l1, a, l2, by rw [hsplit, List.cons_append], pa, pfrom, pto,
              ptime, pdist, ?_, ?_, ?_, ?_⟩
            · rw [hc]; exact pit
            · rw [hc]; exact pprev
            · rw [hc]; exact pcd
            · rw [hc2, hc]; exact ppin

/-- C6 (amended): every tag executed by an `update` satisfies, at the
moment of its execution, all four guards of the source's scan.  The
target splits the agent array as `l1 ++ a :: l2`; the state at the
moment of execution is `checkTags it l1 s1` (the scan threaded over the
agents preceding the target, from the clock-advanced tick state `s1`),
and there: the target is not the current `itAgentId`, not the current
`prevItAgentId`, not on cooldown, and its squared distance to the
*captured* IT agent `it` (the agent that was IT at the start of the
tick) is strictly below `TAG_DISTANCE ^ 2 = 1.44`; the recorded tagger
is that captured agent, and scanning the target from that state appends
exactly this event.  (The claim's stronger reading — that the tagger is
the agent that is IT at execution time and the target is within `1.2`
of *that* agent — fails for the second tag of a tick, see the
counterexample.) -/
theorem executed_tag_guard (s : SifaState) (dt : ℚ) (it : SAgent)
    (hit : getIdx? s.agents s.itAgentId = some it)
    (hid : s.itAgentId = it.id) :
    ∀ e ∈ newEvents s dt,
      ∃ l1 a l2, s.agents = l1 ++ a :: l2 ∧ a.id = e.toId
        ∧ e.fromId = it.id ∧ e.toId ≠ it.id ∧ e.time = s.gameTime + dt
        ∧ distSq it a < TAG_DISTANCE ^ 2
        ∧ e.toId ≠ (checkTags it l1 { s with gameTime := s.gameTime + dt }).itAgentId
        ∧ (e.toId : Int)
            ≠ (checkTags it l1 { s with gameTime := s.gameTime + dt }).prevItAgentId
        ∧ isOnCooldown (checkTags it l1 { s with gameTime := s.gameTime + dt }) e.toId
            = false
        ∧ (checkTags it (l1 ++ [a]) { s with gameTime := s.gameTime + dt }).tagHistory
            = (checkTags it l1 { s with gameTime := s.gameTime + dt }).tagHistory
              ++ [e] := by
  intro e he
  unfold newEvents at he
  rw [update_tagHistory_some s dt it hit] at he
  have hJ : ({ s with gameTime := s.gameTime + dt } : SifaState).itAgentId = it.id
      ∨ ({ s with gameTime := s.gameTime + dt } : SifaState).prevItAgentId = (it.id : Int) :=
    Or.inl hid
  rcases checkTags_events it s.agents { s with gameTime := s.gameTime + dt } hJ
    with ⟨suf, hh, hp⟩
  rw [hh] at he
  have hdrop : (({ s with gameTime := s.gameTime + dt } : SifaState).tagHistory
      ++ suf).drop s.tagHistory.length = suf := List.drop_left _ _
  rw [hdrop] at he
  exact hp e he


lemma shieldFn_id (i : Nat) (b : Bool) (a : SAgent) : (shieldFn i b a).id = a.id := by
  unfold shieldFn; split <;> rfl

lemma distSq_shieldFn (i : Nat) (b : Bool) (p q : SAgent) :
    distSq (shieldFn i b p) (shieldFn i b q) = distSq p q := by
  unfold shieldFn distSq
  split <;> split <;> rfl

lemma setFn_shieldFn_comm (i : Nat) (b : Bool) (j : Nat) (v : Bool) (a : SAgent) :
    (if (shieldFn i b a).id = j then { shieldFn i b a with isIt := v } else shieldFn i b a)
      = shieldFn i b (if a.id = j then { a with isIt := v } else a) := by
  unfold shieldFn
  by_cases h1 : a.id = i <;> by_cases h2 : a.id = j
  · subst h1; subst h2; simp
  · subst h1; simp [h2]
  · subst h2; simp [h1]
  · simp [h1, h2]

lemma setIsIt_shieldFn (i : Nat) (b : Bool) (l : List SAgent) (j : Nat) (v : Bool) :
    setIsIt (l.map (shieldFn i b)) j v = (setIsIt l j v).map (shieldFn i b) := by
  unfold setIsIt
  rw [List.map_map, List.map_map]
  apply List.map_congr_left
  intro a _
  simp only [Function.comp]
  exact setFn_shieldFn_comm i b j v a

lemma getIdx?_map (f : SAgent → SAgent) :
    ∀ (l : List SAgent) (k : Nat), getIdx? (l.map f) k = (getIdx? l k).map f := by
  intro l
  induction l with
  | nil => intro k; rfl
  | cons a rest ih =>
      intro k
      cases k with
      | zero => rfl
      | succ n => simpa using ih n

lemma modifyShielded_agents (i : Nat) (b : Bool) (s : SifaState) :
    (modifyShielded i b s).agents = s.agents.map (shieldFn i b) := rfl

lemma modifyShielded_itAgentId (i : Nat) (b : Bool) (s : SifaState) :
    (modifyShielded i b s).itAgentId = s.itAgentId := rfl

lemma modifyShielded_prevIt (i : Nat) (b : Bool) (s : SifaState) :
    (modifyShielded i b s).prevItAgentId = s.prevItAgentId := rfl

lemma modifyShielded_cooldowns (i : Nat) (b : Bool) (s : SifaState) :
    (modifyShielded i b s).cooldowns = s.cooldowns := rfl

lemma modifyShielded_gameTime (i : Nat) (b : Bool) (s : SifaState) :
    (modifyShielded i b s).gameTime = s.gameTime := rfl

lemma isOnCooldown_shield (i : Nat) (b : Bool) (s : SifaState) (j : Nat) :
    isOnCooldown (modifyShielded i b s) j = isOnCooldown s j := rfl

lemma executeTag_shieldFn (i : Nat) (b : Bool) (s : SifaState) (it t : SAgent) :
    executeTag (modifyShielded i b s) (shieldFn i b it) (shieldFn i b t)
      = modifyShielded i b (executeTag s it t) := by
  unfold executeTag
  simp only [modifyShielded_agents, modifyShielded_cooldowns, modifyShielded_gameTime,
    shieldFn_id, setIsIt_shieldFn]
  rfl

lemma tagStep_shieldFn (i : Nat) (b : Bool) (s : SifaState) (it t : SAgent) :
    tagStep (shieldFn i b it) (shieldFn i b t) (modifyShielded i b s)
      = modifyShielded i b (tagStep it t s) := by
  unfold tagStep
  simp only [shieldFn_id, distSq_shieldFn, isOnCooldown_shield,
    modifyShielded_itAgentId, modifyShielded_prevIt]
  split_ifs <;> first
    | rfl
    | exact executeTag_shieldFn i b s it t

lemma checkTags_shieldFn (i : Nat) (b : Bool) (it : SAgent) :
    ∀ (l : List SAgent) (s : SifaState),
      checkTags (shieldFn i b it) (l.map (shieldFn i b)) (modifyShielded i b s)
        = modifyShielded i b (checkTags it l s) := by
  intro l
  induction l with
  | nil => intro s; rfl
  | cons t rest ih =>
      intro s
      show checkTags (shieldFn i b it) (rest.map (shieldFn i b))
          (tagStep (shieldFn i b it) (shieldFn i b t) (modifyShielded i b s))
        = modifyShielded i b (checkTags it rest (tagStep it t s))
      rw [tagStep_shieldFn, ih]

lemma update_shieldFn (s : SifaState) (dt : ℚ) (i : Nat) (b : Bool) :
    update (modifyShielded i b s) dt = modifyShielded i b (update s dt) := by
  unfold update
  cases hg : getIdx? s.agents s.itAgentId with
  | none =>
      have hg2 : getIdx? (modifyShielded i b s).agents (modifyShielded i b s).itAgentId = none := by
        rw [modifyShielded_agents, modifyShielded_itAgentId, getIdx?_map, hg]
        rfl
      simp only [hg, hg2]
      rfl
  | some it =>
      have hg2 : getIdx? (modifyShielded i b s).agents (modifyShielded i b s).itAgentId
          = some (shieldFn i b it) := by
        rw [modifyShielded_agents, modifyShielded_itAgentId, getIdx?_map, hg]
        rfl
      simp only [hg, hg2]
      have hC : checkTags (shieldFn i b it) (modifyShielded i b s).agents
            ({ modifyShielded i b s with
                gameTime := (modifyShielded i b s).gameTime + dt } : SifaState)
          = modifyShielded i b (checkTags it s.agents { s with gameTime := s.gameTime + dt }) :=
        checkTags_shieldFn i b it s.agents { s with gameTime := s.gameTime + dt }
      exact (congrArg (fun x : SifaState =>
        ({ x with cooldowns := x.cooldowns.filter fun p => decide (x.gameTime < p.2) }
          : SifaState)) hC).trans rfl

end SifaRules

/-- C9: whether `SifaRules.update` executes a tag never depends on any
agent's `shielded` flag: flipping one agent's `shielded` value commutes
with `update` (so both runs take identical tag decisions, and the flag
itself is never read or cleared by the tag logic).  In particular, in
`shieldState` the shielded agent 1, standing within `TAG_DISTANCE` of the
IT agent, is tagged anyway and remains shielded — despite `Agent.shielded`
being documented as "immune to tag". -/
theorem tag_ignores_shielded :
    (∀ (s : SifaState) (dt : ℚ) (i : Nat) (b : Bool),
      SifaRules.update (SifaRules.modifyShielded i b s) dt
        = SifaRules.modifyShielded i b (SifaRules.update s dt))
    ∧ (SifaRules.update shieldState (1/60)).itAgentId = 1
    ∧ ((SifaRules.update shieldState (1/60)).agents.map fun a => (a.isIt, a.shielded))
        = [(false, false), (true, true), (false, false), (false, false), (false, false)] := by
  refine ⟨fun s dt i b => SifaRules.update_shieldFn s dt i b, ?_, ?_⟩
  · with_unfolding_all decide
  · with_unfolding_all decide

/-- Witness for `tag_immunity_until_next_tag`: in `tagState` the first
new event of an `update` is the tag `(0, 1)` at time `1/60`, and its
target differs from the incoming `prevItAgentId = -1`. -/
theorem tag_immunity_until_next_tag_witness :
    (SifaRules.newEvents tagState (1/60)).head? = some ⟨0, 1, 1/60⟩
    ∧ (((⟨0, 1, 1/60⟩ : TagEvent)).toId : Int) ≠ tagState.prevItAgentId :=
  ⟨by with_unfolding_all decide,
   SifaRules.tag_immunity_until_next_tag tagState (1/60) ⟨0, 1, 1/60⟩
     (by with_unfolding_all decide)⟩

/-- Witness for `executed_tag_guard`: the tag `(0, 1)` recorded in
`tagState`'s update satisfies all the per-execution guard facts against
the threaded scan state. -/
theorem executed_tag_guard_witness :
    (⟨0, 1, 1/60⟩ : TagEvent) ∈ SifaRules.newEvents tagState (1/60)
    ∧ ∃ l1 a l2, tagState.agents = l1 ++ a :: l2 ∧ a.id = (⟨0, 1, 1/60⟩ : TagEvent).toId
        ∧ (⟨0, 1, 1/60⟩ : TagEvent).fromId = tagA0.id
        ∧ (⟨0, 1, 1/60⟩ : TagEvent).toId ≠ tagA0.id
        ∧ (⟨0, 1, 1/60⟩ : TagEvent).time = tagState.gameTime + 1/60
        ∧ distSq tagA0 a < SifaRules.TAG_DISTANCE ^ 2
        ∧ (⟨0, 1, 1/60⟩ : TagEvent).toId
            ≠ (SifaRules.checkTags tagA0 l1
                { tagState with gameTime := tagState.gameTime + 1/60 }).itAgentId
        ∧ ((⟨0, 1, 1/60⟩ : TagEvent).toId : Int)
            ≠ (SifaRules.checkTags tagA0 l1
                { tagState with gameTime := tagState.gameTime + 1/60 }).prevItAgentId
        ∧ SifaRules.isOnCooldown (SifaRules.checkTags tagA0 l1
              { tagState with gameTime := tagState.gameTime + 1/60 })
              (⟨0, 1, 1/60⟩ : TagEvent).toId = false
        ∧ (SifaRules.checkTags tagA0 (l1 ++ [a])
              { tagState with gameTime := tagState.gameTime + 1/60 }).tagHistory
            = (SifaRules.checkTags tagA0 l1
                { tagState with gameTime := tagState.gameTime + 1/60 }).tagHistory
              ++ [⟨0, 1, 1/60⟩] :=
  ⟨by with_unfolding_all decide,
   SifaRules.executed_tag_guard tagState (1/60) tagA0 (by with_unfolding_all decide) rfl
     ⟨0, 1, 1/60⟩ (by with_unfolding_all decide)⟩

lemma argmax8_step_sel (score : Fin 8 → Qr2) :
    ∀ (l : List (Fin 8)) (acc : Option Qr2 × (Qr2 × Qr2)),
      (∃ i, acc.2 = dirVel i) →
      ∃ i, (l.foldl (fun acc i =>
          let sc := score i
          match acc.1 with
          | none => (some sc, dirVel i)
          | some bs => if Qr2.ltB bs sc then (some sc, dirVel i) else acc) acc).2 = dirVel i := by
  intro l
  induction l with
  | nil => intro acc h; exact h
  | cons j rest ih =>
      intro acc h
      apply ih
      rcases acc with ⟨b, v⟩
      cases b with
      | none => exact ⟨j, rfl⟩
      | some bs =>
          by_cases hlt : Qr2.ltB bs (score j) = true
          · exact ⟨j, by simp [hlt]⟩
          · rcases h with ⟨i, hi⟩
            exact ⟨i, by simp only [Bool.not_eq_true] at hlt; simp [hlt]; exact hi⟩

lemma argmax8_mem (score : Fin 8 → Qr2) : ∃ i, argmax8 score = dirVel i := by
  unfold argmax8
  have h8 : List.finRange 8 = [0, 1, 2, 3, 4, 5, 6, 7] := by decide
  rw [h8, List.foldl_cons]
  exact argmax8_step_sel score [1, 2, 3, 4, 5, 6, 7] _ ⟨0, rfl⟩

set_option maxHeartbeats 1000000 in
lemma dirVel_normSq :
    ∀ i : Fin 8, (dirVel i).1 * (dirVel i).1 + (dirVel i).2 * (dirVel i).2 = Qr2.ofRat 100 := by
  with_unfolding_all decide

lemma diagnose_frames_bound (sq : ℚ → ℚ) (sq2 : Qr2 → Qr2) (d : StuckData) (inp : StuckInput)
    (h : d.stuckFrames ≤ 11) :
    (diagnose sq sq2 d inp).1.stuckFrames ≤ 11
    ∧ (diagnose sq sq2 d inp).1.warpedCount = d.warpedCount := by
  unfold diagnose
  rcases hlp : d.lastPos with _ | lp <;>
    simp only [hlp] <;>
    split_ifs <;>
    simp_all [WARP_THRESHOLD, ESCAPE_THRESHOLD] <;>
    omega

lemma runDiag_no_warp (sq : ℚ → ℚ) (sq2 : Qr2 → Qr2) :
    ∀ (steps : List StuckInput) (d : StuckData), d.stuckFrames ≤ 11 →
      (runDiag sq sq2 steps d).stuckFrames ≤ 11
      ∧ (runDiag sq sq2 steps d).warpedCount = d.warpedCount := by
  intro steps
  induction steps with
  | nil => intro d h; exact ⟨h, rfl⟩
  | cons inp rest ih =>
      intro d h
      have h1 := diagnose_frames_bound sq sq2 d inp h
      have h2 := ih (diagnose sq sq2 d inp).1 h1.1
      exact ⟨h2.1, h2.2.trans h1.2⟩

/-- C5 (amended): (i) when the stuck counter reaches the mid threshold
`ESCAPE_THRESHOLD = 12` (a maximally stuck tick from a counter of 11),
`diagnose` returns a smart-escape override velocity whose exact squared
magnitude is 100 (hence nonzero, of magnitude 10), for every abstract
square root; (ii) the high threshold `WARP_THRESHOLD = 35` is *not*
reachable, contrary to the claim: under every sequence of `diagnose`
calls starting from `initAgent`, the counter never exceeds 11 after a
call (the escape at 12 resets it to 0), so the warp/relocation tier never
fires and `warpedCount` stays 0. -/
theorem escape_nonzero_and_warp_unreachable :
    (∀ (sq : ℚ → ℚ) (sq2 : Qr2 → Qr2) (d : StuckData) (inp : StuckInput) (lp : ℚ × ℚ),
      d.stuckFrames = 11 → d.lastPos = some lp →
      (inp.px - lp.1) ^ 2 + (inp.pz - lp.2) ^ 2 < (3/200) ^ 2 →
      (1/2) ^ 2 < inp.vx ^ 2 + inp.vz ^ 2 →
      ∃ v, (diagnose sq sq2 d inp).2 = some (StuckAction.escapeVel v)
        ∧ v.1 * v.1 + v.2 * v.2 = Qr2.ofRat 100)
    ∧ (∀ (sq : ℚ → ℚ) (sq2 : Qr2 → Qr2) (steps : List StuckInput),
        (runDiag sq sq2 steps initStuckData).stuckFrames ≤ 11
        ∧ (runDiag sq sq2 steps initStuckData).warpedCount = 0) := by
  constructor
  · intro sq sq2 d inp lp h11 hlp hmv hsp
    have hcond : ((inp.px - lp.1) ^ 2 + (inp.pz - lp.2) ^ 2 < (3/200) ^ 2
        ∧ (1/2) ^ 2 < inp.vx ^ 2 + inp.vz ^ 2) := ⟨hmv, hsp⟩
    refine ⟨findEscapeDir sq2 inp.px inp.pz inp.agents inp.myId, ?_, ?_⟩
    · unfold diagnose
      simp only [hlp, hcond, if_pos, h11]
      norm_num [WARP_THRESHOLD, ESCAPE_THRESHOLD]
    · rcases argmax8_mem (escapeScore sq2 inp.px inp.pz inp.agents inp.myId) with ⟨i, hi⟩
      unfold findEscapeDir
      rw [hi]
      exact dirVel_normSq i
  · intro sq sq2 steps
    have h := runDiag_no_warp sq sq2 steps initStuckData (by norm_num [initStuckData])
    exact ⟨h.1, h.2⟩

/-- Witness for `escape_nonzero_and_warp_unreachable`: a counter of 11
plus one maximally stuck tick yields the magnitude-10 escape override,
and a one-tick run from `initAgent` neither warps nor overflows. -/
theorem escape_nonzero_and_warp_unreachable_witness :
    (∃ v, (diagnose sqQ0 sq2Zero ⟨11, some (0, 0), 0, 0⟩ stuckInp).2
        = some (StuckAction.escapeVel v) ∧ v.1 * v.1 + v.2 * v.2 = Qr2.ofRat 100)
    ∧ ((runDiag sqQ0 sq2Zero [stuckInp] initStuckData).stuckFrames ≤ 11
       ∧ (runDiag sqQ0 sq2Zero [stuckInp] initStuckData).warpedCount = 0) :=
  ⟨escape_nonzero_and_warp_unreachable.1 sqQ0 sq2Zero ⟨11, some (0, 0), 0, 0⟩ stuckInp (0, 0)
     rfl rfl (by with_unfolding_all decide) (by with_unfolding_all decide),
   escape_nonzero_and_warp_unreachable.2 sqQ0 sq2Zero [stuckInp]⟩

namespace GeneSys

lemma abilityDef_pos (k : AbilityKey) :
    0 < (abilityDef k).duration ∧ 0 < (abilityDef k).cooldown := by
  cases k <;> norm_num [abilityDef]

lemma get_mapIdx (f : AbilityKey → ℚ → ℚ) (m : AbilVec) (k : AbilityKey) :
    (AbilVec.mapIdx f m).get k = f k (m.get k) := by
  cases k <;> rfl

lemma abilityTick_active (dt : ℚ) (ev : AgentEvo) (k : AbilityKey) :
    (abilityTick dt ev).active.get k
      = if 0 < ev.active.get k then
          (if ev.active.get k - dt ≤ 0 then 0 else ev.active.get k - dt)
        else ev.active.get k := by
  unfold abilityTick
  rw [get_mapIdx]

lemma abilityTick_cds (dt : ℚ) (ev : AgentEvo) (k : AbilityKey) :
    (abilityTick dt ev).cds.get k
      = (fun rmid => if 0 < rmid then (if rmid - dt ≤ 0 then 0 else rmid - dt) else rmid)
          (if 0 < ev.active.get k ∧ ev.active.get k - dt ≤ 0 then (abilityDef k).cooldown
           else ev.cds.get k) := by
  unfold abilityTick
  rw [get_mapIdx, get_mapIdx]

lemma find?_keyed_map (f : Nat → AgentEvo → AgentEvo) :
    ∀ (l : List (Nat × AgentEvo)) (i : Nat),
      find? (l.map fun p => (p.1, f p.1 p.2)) i = (find? l i).map (f i) := by
  intro l
  induction l with
  | nil => intro i; rfl
  | cons p rest ih =>
      intro i
      by_cases h : p.1 = i
      · subst h
        simp [find?]
      · simp [find?, h, ih i]

lemma find?_updAgent (g : GeneSys) (i : Nat) (f : AgentEvo → AgentEvo) :
    find? (updAgent g i f).agents i = (find? g.agents i).map f := by
  unfold updAgent
  have : (g.agents.map fun p => if p.1 = i then (p.1, f p.2) else p)
      = g.agents.map fun p => (p.1, if p.1 = i then f p.2 else p.2) := by
    apply List.map_congr_left
    intro p _
    by_cases h : p.1 = i <;> simp [h]
  rw [this, find?_keyed_map (fun j ev => if j = i then f ev else ev) g.agents i]
  cases find? g.agents i <;> simp

lemma find?_update (g : GeneSys) (dt : ℚ) (bg : Nat → GeneName × ℚ) (i : Nat) (ev : AgentEvo)
    (h : find? g.agents i = some ev) :
    ∃ ev', find? (update g dt bg).agents i = some ev'
      ∧ ev'.active = (abilityTick dt ev).active ∧ ev'.cds = (abilityTick dt ev).cds := by
  simp only [update]
  split
  · rw [List.map_map]
    have : ((fun p : Nat × AgentEvo =>
          (p.1, (backgroundMutate (bg p.1).1 (bg p.1).2 p.2).1))
        ∘ fun p : Nat × AgentEvo => (p.1, abilityTick dt p.2))
        = fun p : Nat × AgentEvo =>
          (p.1, (backgroundMutate (bg p.1).1 (bg p.1).2 (abilityTick dt p.2)).1) := rfl
    rw [this, find?_keyed_map
      (fun j ev => (backgroundMutate (bg j).1 (bg j).2 (abilityTick dt ev)).1) g.agents i, h]
    exact ⟨_, rfl, rfl, rfl⟩
  · rw [find?_keyed_map (fun _ ev => abilityTick dt ev) g.agents i, h]
    exact ⟨_, rfl, rfl, rfl⟩

lemma canUse_false_of_timer (g : GeneSys) (i : Nat) (k : AbilityKey) (ev : AgentEvo)
    (h : find? g.agents i = some ev) (hd : 0 < ev.active.get k ∨ 0 < ev.cds.get k) :
    canUseAbility g i k = false := by
  unfold canUseAbility
  rw [h]
  dsimp only
  rcases hd with hd | hd <;> split_ifs <;> simp_all

lemma tick_blockedInv (k : AbilityKey) (dl T dt : ℚ) (ev : AgentEvo)
    (_h0 : 0 ≤ dt) (hdl : dt ≤ dl)
    (hInv : blockedInv k dl T (ev.active.get k) (ev.cds.get k))
    (hT : T + dt < (abilityDef k).duration + (abilityDef k).cooldown - dl) :
    blockedInv k dl (T + dt) ((abilityTick dt ev).active.get k) ((abilityTick dt ev).cds.get k) := by
  have hpos := abilityDef_pos k
  rw [abilityTick_active, abilityTick_cds]
  rcases hInv with ⟨ha, hd⟩ | ⟨ha0, hc, hct⟩
  · by_cases hexp : ev.active.get k - dt ≤ 0
    · -- the duration expires in this tick; the cooldown is written and ticked
      have hadt : ev.active.get k ≤ dt := by linarith
      have hcool : ¬ ((abilityDef k).cooldown - dt ≤ 0) := by
        intro hcd
        linarith
      right
      refine ⟨by simp [ha, hexp], ?_, ?_⟩
      · simp only [if_pos ha, if_pos (And.intro ha hexp), if_pos hpos.2, if_neg hcool]
        linarith
      · simp only [if_pos ha, if_pos (And.intro ha hexp), if_pos hpos.2, if_neg hcool]
        linarith
    · -- still active
      left
      constructor
      · simp only [if_pos ha, if_neg hexp]
        linarith
      · simp only [if_pos ha, if_neg hexp]
        linarith
  · -- active already 0, cooldown running
    have hnota : ¬ (0 < ev.active.get k) := by rw [ha0]; norm_num
    have hexp2 : ¬ (0 < ev.active.get k ∧ ev.active.get k - dt ≤ 0) := fun hx => hnota hx.1
    by_cases hcd : ev.cds.get k - dt ≤ 0
    · exfalso
      linarith
    · right
      refine ⟨by simp [hnota, ha0], ?_, ?_⟩
      · simp only [if_neg hnota, if_neg hexp2, if_pos hc, if_neg hcd]
        linarith
      · simp only [if_neg hnota, if_neg hexp2, if_pos hc, if_neg hcd]
        linarith

lemma run_blockedInv (i : Nat) (k : AbilityKey) (dl : ℚ) :
    ∀ (steps : List (ℚ × (Nat → GeneName × ℚ))) (g : GeneSys) (T : ℚ) (ev : AgentEvo),
      find? g.agents i = some ev →
      blockedInv k dl T (ev.active.get k) (ev.cds.get k) →
      (∀ p ∈ steps, 0 ≤ p.1 ∧ p.1 ≤ dl) →
      T + (steps.map Prod.fst).sum < (abilityDef k).duration + (abilityDef k).cooldown - dl →
      ∃ ev', find? (runUpdates steps g).agents i = some ev'
        ∧ (0 < ev'.active.get k ∨ 0 < ev'.cds.get k) := by
  intro steps
  induction steps with
  | nil =>
      intro g T ev hf hInv _ _
      refine ⟨ev, hf, ?_⟩
      rcases hInv with ⟨ha, _⟩ | ⟨_, hc, _⟩
      · exact Or.inl ha
      · exact Or.inr hc
  | cons p rest ih =>
      intro g T ev hf hInv hsteps hT
      have hp := hsteps p (List.mem_cons_self p rest)
      have hT' : T + (p.1 + (rest.map Prod.fst).sum)
          < (abilityDef k).duration + (abilityDef k).cooldown - dl := by
        simpa using hT
      have hrest_nonneg : 0 ≤ ((rest.map Prod.fst).sum : ℚ) := by
        apply List.sum_nonneg
        intro q hq
        rcases List.mem_map.mp hq with ⟨r, hr, hrq⟩
        rcases hsteps r (List.mem_cons_of_mem p hr) with ⟨h1, _⟩
        exact hrq ▸ h1
      have hTp : T + p.1 < (abilityDef k).duration + (abilityDef k).cooldown - dl := by
        linarith
      rcases find?_update g p.1 p.2 i ev hf with ⟨ev', hf', hact, hcds⟩
      have hInv' : blockedInv k dl (T + p.1) (ev'.active.get k) (ev'.cds.get k) := by
        rw [hact, hcds]
        exact tick_blockedInv k dl T p.1 ev hp.1 hp.2 hInv hTp
      exact ih (update g p.1 p.2) (T + p.1) ev' hf' hInv'
        (fun q hq => hsteps q (List.mem_cons_of_mem p hq)) (by linarith)

lemma get_set_self (m : AbilVec) (k : AbilityKey) (v : ℚ) : (m.set k v).get k = v := by
  cases k <;> rfl

lemma canUse_true_elim (g : GeneSys) (i : Nat) (k : AbilityKey)
    (h : canUseAbility g i k = true) :
    ∃ ev, find? g.agents i = some ev
      ∧ (abilityDef k).threshold ≤ ev.genes.get (abilityDef k).gene
      ∧ ev.cds.get k ≤ 0 ∧ ev.active.get k ≤ 0 := by
  unfold canUseAbility at h
  cases hf : find? g.agents i with
  | none => rw [hf] at h; simp at h
  | some ev =>
      rw [hf] at h
      dsimp only at h
      split_ifs at h with h1 h2 h3
      exact ⟨ev, rfl, not_lt.mp h1, not_lt.mp h2, not_lt.mp h3⟩

lemma canUse_false_cases (g : GeneSys) (i : Nat) (k : AbilityKey) (ev : AgentEvo)
    (hf : find? g.agents i = some ev)
    (hd : ev.genes.get (abilityDef k).gene < (abilityDef k).threshold
      ∨ 0 < ev.cds.get k ∨ 0 < ev.active.get k) :
    canUseAbility g i k = false := by
  unfold canUseAbility
  rw [hf]
  dsimp only
  rcases hd with hd | hd | hd <;> split_ifs <;> simp_all

end GeneSys

/-- C7 (amended): `activateAbility` fails with no state change when the
gene is below the ability's threshold, or the cooldown timer is positive,
or the ability is already active; it succeeds otherwise; and after a
success, re-activation stays impossible for every sequence of
`GeneSystem.update` ticks (arbitrary background-mutation draws) whose
individual steps are at most `dl` and whose total elapsed time is below
`duration + cooldown - dl`.  The `- dl` slack is forced by the code: the
cooldown written in the tick in which the duration expires is decremented
within that same tick, so (contrary to the claim) re-activation can
become possible up to one tick earlier than `duration + cooldown` — see
the counterexample. -/
theorem activate_ability_gating :
    (∀ (g : GeneSys) (i : Nat) (k : AbilityKey) (ev : AgentEvo),
      GeneSys.find? g.agents i = some ev →
      (ev.genes.get (abilityDef k).gene < (abilityDef k).threshold
        ∨ 0 < ev.cds.get k ∨ 0 < ev.active.get k) →
      GeneSys.activateAbility g i k = (false, g))
    ∧ (∀ (g : GeneSys) (i : Nat) (k : AbilityKey) (ev : AgentEvo),
      GeneSys.find? g.agents i = some ev →
      (abilityDef k).threshold ≤ ev.genes.get (abilityDef k).gene →
      ev.cds.get k ≤ 0 → ev.active.get k ≤ 0 →
      (GeneSys.activateAbility g i k).1 = true)
    ∧ (∀ (g : GeneSys) (i : Nat) (k : AbilityKey) (dl : ℚ)
        (steps : List (ℚ × (Nat → GeneName × ℚ))),
      GeneSys.canUseAbility g i k = true →
      (∀ p ∈ steps, 0 ≤ p.1 ∧ p.1 ≤ dl) →
      (steps.map Prod.fst).sum < (abilityDef k).duration + (abilityDef k).cooldown - dl →
      GeneSys.canUseAbility (runUpdates steps (GeneSys.activateAbility g i k).2) i k = false) := by
  refine ⟨?_, ?_, ?_⟩
  · intro g i k ev hf hd
    unfold GeneSys.activateAbility
    rw [GeneSys.canUse_false_cases g i k ev hf hd]
    simp
  · intro g i k ev hf hthr hcds hact
    have hcan : GeneSys.canUseAbility g i k = true := by
      unfold GeneSys.canUseAbility
      rw [hf]
      dsimp only
      rw [if_neg (not_lt.mpr hthr), if_neg (not_lt.mpr hcds), if_neg (not_lt.mpr hact)]
    unfold GeneSys.activateAbility
    rw [hcan]
    simp
  · intro g i k dl steps hcan hsteps hsum
    rcases GeneSys.canUse_true_elim g i k hcan with ⟨ev, hf, _, _, _⟩
    have hact2 : (GeneSys.activateAbility g i k).2
        = GeneSys.updAgent g i fun e =>
            { e with active := e.active.set k (abilityDef k).duration } := by
      unfold GeneSys.activateAbility
      rw [hcan]
      rfl
    have hf2 : GeneSys.find? (GeneSys.activateAbility g i k).2.agents i
        = some { ev with active := ev.active.set k (abilityDef k).duration } := by
      rw [hact2, GeneSys.find?_updAgent, hf]
      rfl
    have hInv0 : blockedInv k dl 0
        (({ ev with active := ev.active.set k (abilityDef k).duration } : AgentEvo).active.get k)
        (({ ev with active := ev.active.set k (abilityDef k).duration } : AgentEvo).cds.get k) := by
      left
      constructor
      · show 0 < (ev.active.set k (abilityDef k).duration).get k
        rw [GeneSys.get_set_self]
        exact (GeneSys.abilityDef_pos k).1
      · show (abilityDef k).duration ≤ (ev.active.set k (abilityDef k).duration).get k + 0
        rw [GeneSys.get_set_self]
        linarith
    rcases GeneSys.run_blockedInv i k dl steps (GeneSys.activateAbility g i k).2 0
        { ev with active := ev.active.set k (abilityDef k).duration } hf2 hInv0 hsteps
        (by linarith) with ⟨ev', hf', hdisj⟩
    exact GeneSys.canUse_false_of_timer (runUpdates steps (GeneSys.activateAbility g i k).2)
      i k ev' hf' hdisj

/-- Witness for `activate_ability_gating`: in `g7` the shield ability
(gene `0.2 < 0.8`) fails to activate with no state change; dash (gene
`0.6 ≥ 0.5`, idle timers) activates; and after that activation one
1-second tick (bounded by `dl = 1`, total `1 < 1.5 + 8 - 1`) leaves dash
unusable. -/
theorem activate_ability_gating_witness :
    GeneSys.activateAbility g7 0 .shield = (false, g7)
    ∧ (GeneSys.activateAbility g7 0 .dash).1 = true
    ∧ GeneSys.canUseAbility
        (runUpdates [((1 : ℚ), bg0)] (GeneSys.activateAbility g7 0 .dash).2) 0 .dash = false :=
  ⟨activate_ability_gating.1 g7 0 .shield sampleEvo (by with_unfolding_all decide)
     (Or.inl (by with_unfolding_all decide)),
   activate_ability_gating.2.1 g7 0 .dash sampleEvo (by with_unfolding_all decide)
     (by with_unfolding_all decide) (by with_unfolding_all decide) (by with_unfolding_all decide),
   activate_ability_gating.2.2 g7 0 .dash 1 [((1 : ℚ), bg0)] (by with_unfolding_all decide)
     (by
       intro p hp
       rw [List.mem_singleton] at hp
       subst hp
       norm_num)
     (by norm_num [abilityDef])⟩

namespace Brain

lemma bump_bounded (g : Grid) (c : Nat × Nat) (w : ℚ) (hg : gridBounded g) (hw : 0 ≤ w) :
    gridBounded (bump g c w) := by
  intro i j
  unfold bump
  split
  · constructor
    · have : 0 ≤ g i j + w := add_nonneg (hg i j).1 hw
      exact le_min (by norm_num) this
    · exact min_le_left _ _
  · exact hg i j

lemma bump_le_one (g : Grid) (c : Nat × Nat) (w : ℚ) (hg : ∀ i j, g i j ≤ 1) :
    ∀ i j, bump g c w i j ≤ 1 := by
  intro i j
  unfold bump
  split
  · exact min_le_left _ _
  · exact hg i j

lemma bump_mono (g : Grid) (c : Nat × Nat) (w : ℚ) (hw : 0 ≤ w) (hg : ∀ i j, g i j ≤ 1) :
    ∀ i j, g i j ≤ bump g c w i j := by
  intro i j
  unfold bump
  split
  · exact le_min (hg i j) (by linarith)
  · exact le_refl _

lemma foldBump_bounded (f : (Nat × ℚ × ℚ) → Nat × Nat) (w : (Nat × ℚ × ℚ) → ℚ)
    (hw : ∀ ip, 0 ≤ w ip) :
    ∀ (l : List (Nat × ℚ × ℚ)) (g : Grid), gridBounded g →
      gridBounded (l.foldl (fun g ip => bump g (f ip) (w ip)) g) := by
  intro l
  induction l with
  | nil => intro g hg; exact hg
  | cons ip rest ih =>
      intro g hg
      exact ih (bump g (f ip) (w ip)) (bump_bounded g (f ip) (w ip) hg (hw ip))

lemma foldBump_mono (f : (Nat × ℚ × ℚ) → Nat × Nat) (w : (Nat × ℚ × ℚ) → ℚ)
    (hw : ∀ ip, 0 ≤ w ip) :
    ∀ (l : List (Nat × ℚ × ℚ)) (g : Grid), (∀ i j, g i j ≤ 1) →
      (∀ i j, g i j ≤ (l.foldl (fun g ip => bump g (f ip) (w ip)) g) i j)
      ∧ (∀ i j, (l.foldl (fun g ip => bump g (f ip) (w ip)) g) i j ≤ 1) := by
  intro l
  induction l with
  | nil => intro g hg; exact ⟨fun i j => le_refl _, hg⟩
  | cons ip rest ih =>
      intro g hg
      have h1 := bump_le_one g (f ip) (w ip) hg
      rcases ih (bump g (f ip) (w ip)) h1 with ⟨hm, hb⟩
      refine ⟨fun i j => ?_, hb⟩
      exact le_trans (bump_mono g (f ip) (w ip) (hw ip) hg i j) (hm i j)

lemma trail_weight_nonneg (b : Brain) (hlr : 0 ≤ b.learnRate)
    (n : Nat) (ip : Nat × ℚ × ℚ) :
    0 ≤ ((ip.1 : ℚ) + 1) / (n : ℚ) * b.learnRate := by
  apply mul_nonneg _ hlr
  apply div_nonneg
  · positivity
  · exact Nat.cast_nonneg n

lemma checkGeneration_inv (b : Brain) (h : brainInv b) : brainInv (checkGeneration b) := by
  rcases h with ⟨h1, h2, h3, h4⟩
  simp only [checkGeneration]
  split
  · exact ⟨h1, h2, h3, le_min (by norm_num) (by linarith)⟩
  · exact ⟨h1, h2, h3, h4⟩

lemma decay_cell (v : ℚ) (h0 : 0 ≤ v) (h1 : v ≤ 1) :
    0 ≤ v * DECAY_RATE ∧ v * DECAY_RATE ≤ v ∧ v * DECAY_RATE ≤ 1 := by
  unfold DECAY_RATE
  refine ⟨mul_nonneg h0 (by norm_num), ?_, ?_⟩ <;> nlinarith

lemma applyOp_inv (sq : ℚ → ℚ) (b : Brain) (op : BrainOp) (h : brainInv b) :
    brainInv (applyOp sq b op) := by
  rcases h with ⟨h1, h2, h3, h4⟩
  cases op with
  | gotTagged x z t =>
      simp only [applyOp, onGotTagged]
      apply checkGeneration_inv
      refine ⟨?_, h2, h3, h4⟩
      apply foldBump_bounded (fun ip => worldToGrid ip.2.1 ip.2.2)
        (fun ip => ((ip.1 : ℚ) + 1)
          / ((b.positionHistory.drop (b.positionHistory.length - 5)).length : ℚ) * b.learnRate)
        (fun ip => trail_weight_nonneg b h4 _ ip)
      exact bump_bounded _ _ _ h1 (by linarith)
  | taggedSomeone x z t =>
      simp only [applyOp, onTaggedSomeone]
      apply checkGeneration_inv
      exact ⟨h1, h2, bump_bounded _ _ _ h3 (by linarith), h4⟩
  | chaseFailed t => exact ⟨h1, h2, h3, h4⟩
  | survival x z dt =>
      simp only [applyOp, recordSurvival]
      split
      · exact ⟨h1, h2, h3, h4⟩
      · exact ⟨h1, bump_bounded _ _ _ h2 (by linarith), h3, h4⟩
  | decay =>
      simp only [applyOp, decayMemories]
      refine ⟨fun i j => ?_, fun i j => ?_, fun i j => ?_, h4⟩
      · rcases decay_cell _ (h1 i j).1 (h1 i j).2 with ⟨d1, _, d3⟩
        exact ⟨d1, d3⟩
      · rcases decay_cell _ (h2 i j).1 (h2 i j).2 with ⟨d1, _, d3⟩
        exact ⟨d1, d3⟩
      · rcases decay_cell _ (h3 i j).1 (h3 i j).2 with ⟨d1, _, d3⟩
        exact ⟨d1, d3⟩
  | moveBias x z isIt =>
      simp only [applyOp, getMovementBias]
      split
      · exact ⟨h1, h2, h3, h4⟩
      · exact ⟨h1, h2, h3, h4⟩

lemma checkGeneration_dangerMap (b : Brain) :
    (checkGeneration b).dangerMap = b.dangerMap := by
  simp only [checkGeneration]
  split <;> rfl

lemma onGotTagged_mono (b : Brain) (x z : ℚ) (hlr : 0 ≤ b.learnRate)
    (hb : ∀ i j, b.dangerMap i j ≤ 1) (i j : Nat) :
    b.dangerMap i j ≤ (onGotTagged x z b).dangerMap i j
    ∧ (onGotTagged x z b).dangerMap i j ≤ 1 := by
  unfold onGotTagged
  rw [checkGeneration_dangerMap]
  dsimp only
  have hd1le := bump_le_one b.dangerMap (worldToGrid x z) (b.learnRate * 2) hb
  have hd1mono := bump_mono b.dangerMap (worldToGrid x z) (b.learnRate * 2) (by linarith) hb
  rcases foldBump_mono (fun ip => worldToGrid ip.2.1 ip.2.2)
      (fun ip => ((ip.1 : ℚ) + 1)
        / ((b.positionHistory.drop (b.positionHistory.length - 5)).length : ℚ) * b.learnRate)
      (fun ip => trail_weight_nonneg b hlr _ ip)
      (b.positionHistory.drop (b.positionHistory.length - 5)).enum
      (bump b.dangerMap (worldToGrid x z) (b.learnRate * 2)) hd1le with ⟨hm, hle⟩
  exact ⟨le_trans (hd1mono i j) (hm i j), hle i j⟩

lemma applyOps_inv (sq : ℚ → ℚ) :
    ∀ (ops : List BrainOp) (b : Brain), brainInv b → brainInv (applyOps sq ops b) := by
  intro ops
  induction ops with
  | nil => intro b h; exact h
  | cons op rest ih =>
      intro b h
      exact ih (applyOp sq b op) (applyOp_inv sq b op h)

lemma init_inv (aggr : ℚ) (h : 0 ≤ aggr) : brainInv (init aggr) := by
  refine ⟨fun i j => ?_, fun i j => ?_, fun i j => ?_, ?_⟩ <;>
    simp [init] ; linarith

end Brain

/-- C8: every cell of every `SpatialMemory` grid (`dangerMap`, `safeMap`,
`chaseMap`) stays in `[0, 1]` under every sequence of brain operations
from a fresh brain (for any nonnegative personality aggression);
`onGotTagged` never decreases the danger value of any tile and never
pushes any cell above `1` (repeated calls at one tile climb toward the
`min 1` cap); and `decayMemories` multiplies every cell of all three
grids by `DECAY_RATE = 0.995`, staying nonnegative and nonincreasing on
nonnegative cells. -/
theorem brain_grids_bounded :
    (∀ (sq : ℚ → ℚ) (aggr : ℚ), 0 ≤ aggr → ∀ (ops : List BrainOp),
      brainInv (applyOps sq ops (Brain.init aggr)))
    ∧ (∀ (b : Brain) (x z : ℚ), 0 ≤ b.learnRate → (∀ i j, b.dangerMap i j ≤ 1) →
      ∀ i j, b.dangerMap i j ≤ (Brain.onGotTagged x z b).dangerMap i j
        ∧ (Brain.onGotTagged x z b).dangerMap i j ≤ 1)
    ∧ (∀ (b : Brain) (i j : Nat),
      (Brain.decayMemories b).dangerMap i j = b.dangerMap i j * Brain.DECAY_RATE
      ∧ (Brain.decayMemories b).safeMap i j = b.safeMap i j * Brain.DECAY_RATE
      ∧ (Brain.decayMemories b).chaseMap i j = b.chaseMap i j * Brain.DECAY_RATE
      ∧ (0 ≤ b.dangerMap i j →
          0 ≤ (Brain.decayMemories b).dangerMap i j
          ∧ (Brain.decayMemories b).dangerMap i j ≤ b.dangerMap i j)) := by
  refine ⟨?_, ?_, ?_⟩
  · intro sq aggr h ops
    exact Brain.applyOps_inv sq ops (Brain.init aggr) (Brain.init_inv aggr h)
  · intro b x z hlr hb i j
    exact Brain.onGotTagged_mono b x z hlr hb i j
  · intro b i j
    refine ⟨rfl, rfl, rfl, fun h0 => ?_⟩
    constructor
    · exact mul_nonneg h0 (by norm_num [Brain.DECAY_RATE])
    · show b.dangerMap i j * Brain.DECAY_RATE ≤ b.dangerMap i j
      unfold Brain.DECAY_RATE
      nlinarith [h0]

/-- Witness for `brain_grids_bounded`: a two-operation run from a fresh
brain with aggression `0.9`, the monotone fact at tile `(3, 4)`, and the
decay equations on the fresh brain. -/
theorem brain_grids_bounded_witness :
    brainInv (applyOps sqQ0 [BrainOp.gotTagged 1 2 0, BrainOp.decay] (Brain.init (9/10)))
    ∧ ((Brain.init (9/10)).dangerMap 3 4
          ≤ (Brain.onGotTagged 1 2 (Brain.init (9/10))).dangerMap 3 4
       ∧ (Brain.onGotTagged 1 2 (Brain.init (9/10))).dangerMap 3 4 ≤ 1)
    ∧ ((Brain.decayMemories (Brain.init (9/10))).dangerMap 3 4
          = (Brain.init (9/10)).dangerMap 3 4 * Brain.DECAY_RATE
       ∧ (Brain.decayMemories (Brain.init (9/10))).safeMap 3 4
          = (Brain.init (9/10)).safeMap 3 4 * Brain.DECAY_RATE
       ∧ (Brain.decayMemories (Brain.init (9/10))).chaseMap 3 4
          = (Brain.init (9/10)).chaseMap 3 4 * Brain.DECAY_RATE
       ∧ (0 ≤ (Brain.init (9/10)).dangerMap 3 4 →
           0 ≤ (Brain.decayMemories (Brain.init (9/10))).dangerMap 3 4
           ∧ (Brain.decayMemories (Brain.init (9/10))).dangerMap 3 4
              ≤ (Brain.init (9/10)).dangerMap 3 4)) :=
  ⟨brain_grids_bounded.1 sqQ0 (9/10) (by norm_num) [BrainOp.gotTagged 1 2 0, BrainOp.decay],
   brain_grids_bounded.2.1 (Brain.init (9/10)) 1 2 (by norm_num [Brain.init])
     (fun i j => by norm_num [Brain.init]) 3 4,
   brain_grids_bounded.2.2 (Brain.init (9/10)) 3 4⟩

lemma invoked_zero (sq : ℚ → ℚ) :
    ∀ (ops : List BrainOp) (b : Brain),
      (∀ op ∈ ops, op.isSimInvoked = true) →
      (∀ i j, b.dangerMap i j = 0) → (∀ i j, b.chaseMap i j = 0) → b.generation = 1 →
      (∀ i j, (applyOps sq ops b).dangerMap i j = 0)
      ∧ (∀ i j, (applyOps sq ops b).chaseMap i j = 0)
      ∧ (applyOps sq ops b).generation = 1 := by
  intro ops
  induction ops with
  | nil => intro b _ hd hc hg; exact ⟨hd, hc, hg⟩
  | cons op rest ih =>
      intro b hops hd hc hg
      have hop := hops op (List.mem_cons_self op rest)
      have step : (∀ i j, (applyOp sq b op).dangerMap i j = 0)
          ∧ (∀ i j, (applyOp sq b op).chaseMap i j = 0)
          ∧ (applyOp sq b op).generation = 1 := by
        cases op with
        | survival x z dt =>
            simp only [applyOp, Brain.recordSurvival]
            split
            · exact ⟨hd, hc, hg⟩
            · exact ⟨hd, hc, hg⟩
        | decay =>
            simp only [applyOp, Brain.decayMemories]
            refine ⟨fun i j => ?_, fun i j => ?_, hg⟩
            · rw [hd i j]
              ring
            · rw [hc i j]
              ring
        | moveBias x z isIt =>
            simp only [applyOp, Brain.getMovementBias]
            split
            · exact ⟨hd, hc, hg⟩
            · exact ⟨hd, hc, hg⟩
        | gotTagged x z t => simp [BrainOp.isSimInvoked] at hop
        | taggedSomeone x z t => simp [BrainOp.isSimInvoked] at hop
        | chaseFailed t => simp [BrainOp.isSimInvoked] at hop
      exact ih (applyOp sq b op) (fun o ho => hops o (List.mem_cons_of_mem op ho))
        step.1 step.2.1 step.2.2

/-- C10: in the composed simulation the only brain operations ever
invoked are `getMovementBias`, `recordSurvival` and `decayMemories`
(`onGotTagged`, `onTaggedSomeone` and `onChaseFailed` have no caller —
in particular `executeTag` never calls them).  Under every sequence of
those invoked operations, every `dangerMap` and `chaseMap` cell of every
agent brain stays `0` (and the generation stays 1); consequently a
runner's learned movement bias depends only on `safeMap`: two such
reachable brains with equal `safeMap` produce identical
`getMovementBias` results for runners. -/
theorem danger_chase_unused :
    (∀ (sq : ℚ → ℚ) (aggr : ℚ) (ops : List BrainOp),
      (∀ op ∈ ops, op.isSimInvoked = true) →
      ∀ i j, (applyOps sq ops (Brain.init aggr)).dangerMap i j = 0
        ∧ (applyOps sq ops (Brain.init aggr)).chaseMap i j = 0)
    ∧ (∀ (sq : ℚ → ℚ) (a1 a2 : ℚ) (ops1 ops2 : List BrainOp),
      (∀ op ∈ ops1, op.isSimInvoked = true) →
      (∀ op ∈ ops2, op.isSimInvoked = true) →
      (applyOps sq ops1 (Brain.init a1)).safeMap = (applyOps sq ops2 (Brain.init a2)).safeMap →
      ∀ (x z : ℚ),
        (Brain.getMovementBias sq (applyOps sq ops1 (Brain.init a1)) x z false).2
          = (Brain.getMovementBias sq (applyOps sq ops2 (Brain.init a2)) x z false).2) := by
  have hzero : ∀ (sq : ℚ → ℚ) (aggr : ℚ) (ops : List BrainOp),
      (∀ op ∈ ops, op.isSimInvoked = true) →
      (∀ i j, (applyOps sq ops (Brain.init aggr)).dangerMap i j = 0)
      ∧ (∀ i j, (applyOps sq ops (Brain.init aggr)).chaseMap i j = 0)
      ∧ (applyOps sq ops (Brain.init aggr)).generation = 1 := by
    intro sq aggr ops hops
    exact invoked_zero sq ops (Brain.init aggr) hops
      (fun i j => rfl) (fun i j => rfl) rfl
  constructor
  · intro sq aggr ops hops i j
    exact ⟨(hzero sq aggr ops hops).1 i j, (hzero sq aggr ops hops).2.1 i j⟩
  · intro sq a1 a2 ops1 ops2 h1 h2 hsafe x z
    rcases hzero sq a1 ops1 h1 with ⟨hd1, hc1, hg1⟩
    rcases hzero sq a2 ops2 h2 with ⟨hd2, hc2, hg2⟩
    have hdeq : (applyOps sq ops1 (Brain.init a1)).dangerMap
        = (applyOps sq ops2 (Brain.init a2)).dangerMap := by
      funext i j
      rw [hd1 i j, hd2 i j]
    have hceq : (applyOps sq ops1 (Brain.init a1)).chaseMap
        = (applyOps sq ops2 (Brain.init a2)).chaseMap := by
      funext i j
      rw [hc1 i j, hc2 i j]
    have hgeq : (applyOps sq ops1 (Brain.init a1)).generation
        = (applyOps sq ops2 (Brain.init a2)).generation := by
      rw [hg1, hg2]
    simp only [Brain.getMovementBias]
    rw [hdeq, hceq, hsafe, hgeq]
    split_ifs <;> rfl

/-- Witness for `danger_chase_unused`: a concrete invoked-only run
(`recordSurvival`, `decayMemories`, a bias query) keeps `dangerMap` and
`chaseMap` at zero, and two such runs with equal `safeMap` give the same
runner bias. -/
theorem danger_chase_unused_witness :
    (∀ i j, (applyOps sqQ0 [BrainOp.survival 1 2 2, BrainOp.decay, BrainOp.moveBias 1 2 false]
        (Brain.init (9/10))).dangerMap i j = 0
      ∧ (applyOps sqQ0 [BrainOp.survival 1 2 2, BrainOp.decay, BrainOp.moveBias 1 2 false]
        (Brain.init (9/10))).chaseMap i j = 0)
    ∧ (Brain.getMovementBias sqQ0 (applyOps sqQ0 [BrainOp.decay] (Brain.init (9/10))) 1 2 false).2
        = (Brain.getMovementBias sqQ0 (applyOps sqQ0 [BrainOp.decay] (Brain.init (2/5))) 1 2 false).2 :=
  ⟨fun i j => danger_chase_unused.1 sqQ0 (9/10)
      [BrainOp.survival 1 2 2, BrainOp.decay, BrainOp.moveBias 1 2 false]
      (by intro op hop; fin_cases hop <;> rfl) i j,
   danger_chase_unused.2 sqQ0 (9/10) (2/5) [BrainOp.decay] [BrainOp.decay]
      (by intro op hop; fin_cases hop ; rfl)
      (by intro op hop; fin_cases hop ; rfl)
      (by funext i j; show (0 : ℚ) * Brain.DECAY_RATE = 0 * Brain.DECAY_RATE; rfl) 1 2⟩
